import Mathlib

/-!
# Virtual Wake-on-LAN (virtwold.go)

A shallow embedding of `WakeVirtualMachine` (virtwold.go, lines 70-148) and of the
frame loop of `main` (lines 57-67), together with the properties of the decision engine:
address comparison, inventory matching, the wake decision switch and the fatal handling
of control plane failures.

The libvirt control plane, the xmlquery library and the Unicode case tables are outside
the repository; their answers are the fields of `Env`.  Every control plane call that the
Go code issues is recorded, in order, in the `trace` of the resulting `Proc`; a
`log.Fatalf` ends the process and is the `Except.error` result.
-/

namespace Virtwold

/-! ## Data model -/

/-- The go-libvirt `Domain` value handed out by `ConnectListAllDomains`. -/
structure Domain where
  Name : String
  UUID : List Nat
  ID : Int
deriving DecidableEq, Repr

/-- The control plane calls issued by `WakeVirtualMachine`, one constructor per call site. -/
inductive Call where
  | DialTimeout
  | Connect
  | ConnectListAllDomains
  | DomainGetXMLDesc (d : Domain)
  | DomainGetState (d : Domain)
  | DomainCreate (d : Domain)
  | DomainPmWakeup (d : Domain)
  | DomainResume (d : Domain)
  | Disconnect
deriving DecidableEq, Repr

/-- Everything `WakeVirtualMachine` obtains from outside the repository during one run.
An answer `none` stands for a Go call returning `err != nil`.

* `SimpleFold` is `unicode.SimpleFold` (the case orbit table of the Go standard library);
* `Parse` is `xmlquery.Parse` on the descriptor text, `Find` is `xmlquery.Find` with the
  fixed path `//domain/devices/interface/mac/@address`, giving the `InnerText` of each
  node found, in document order;
* the remaining fields are the answers of the libvirt control plane. -/
structure Env (Doc : Type) where
  SimpleFold : Char → Char
  Parse : String → Option Doc
  Find : Doc → List String
  DialTimeout : Option Unit
  Connect : Option Unit
  ConnectListAllDomains : Option (List Domain)
  DomainGetXMLDesc : Domain → Option String
  DomainGetState : Domain → Option Int
  DomainCreate : Domain → Option Unit
  DomainPmWakeup : Domain → Option Unit
  DomainResume : Domain → Option Unit
  Disconnect : Option Unit

/-! ## libvirt domain states

The numeric values of the go-libvirt `DomainState` constants (libvirt `virDomainState`). -/

def DomainNostate : Int := 0
def DomainRunning : Int := 1
def DomainBlocked : Int := 2
def DomainPaused : Int := 3
def DomainShutdown : Int := 4
def DomainShutoff : Int := 5
def DomainCrashed : Int := 6
def DomainPmsuspended : Int := 7

/-! ## `strings.EqualFold`

Go compares the two strings rune by rune.  The byte loop at the head of the Go function
(the ASCII fast path) and the rune loop after the label `hasUnicode` perform the same
test on a pair of ASCII runes, and the byte loop leaves for the rune loop at the first
byte `>= utf8.RuneSelf`, which is a rune boundary of both strings; on strings holding
valid UTF-8 the function is therefore the rune-wise comparison below. -/

/-- Go `utf8.RuneSelf`. -/
def RuneSelf : Nat := 0x80

/-- The loop `for r != sr && r < tr { r = unicode.SimpleFold(r) }`.  The case orbits of
Go are cycles of a few runes, so the loop is over long before the number of code points,
which is the fuel handed in by `runeFoldEq`. -/
def foldWalk (SimpleFold : Char → Char) (sr tr : Char) : Nat → Char → Char
  | 0, r => r
  | fuel + 1, r =>
    if r ≠ sr ∧ r.toNat < tr.toNat then foldWalk SimpleFold sr tr fuel (SimpleFold r) else r

/-- One round of the comparison loop of `strings.EqualFold` on the runes `sr` and `tr`:
`true` when Go executes `continue`, `false` when it executes `return false`. -/
def runeFoldEq (SimpleFold : Char → Char) (sr tr : Char) : Bool :=
  if tr = sr then true
  else
    -- Make sr < tr to simplify what follows.
    let lo := if tr.toNat < sr.toNat then tr else sr
    let hi := if tr.toNat < sr.toNat then sr else tr
    if hi.toNat < RuneSelf then
      -- ASCII only, sr/tr must be upper/lower case
      decide ('A'.toNat ≤ lo.toNat) && decide (lo.toNat ≤ 'Z'.toNat)
        && decide (hi.toNat = lo.toNat + 'a'.toNat - 'A'.toNat)
    else
      decide (foldWalk SimpleFold lo hi 0x110000 (SimpleFold lo) = hi)

/-- The comparison loop of `strings.EqualFold` over the runes of both strings. -/
def EqualFoldRunes (SimpleFold : Char → Char) : List Char → List Char → Bool
  | [], t => t.isEmpty
  | _ :: _, [] => false
  | sr :: s, tr :: t => runeFoldEq SimpleFold sr tr && EqualFoldRunes SimpleFold s t

/-- Go `strings.EqualFold(s, t)`. -/
def EqualFold (SimpleFold : Char → Char) (s t : String) : Bool :=
  EqualFoldRunes SimpleFold s.toList t.toList

/-! ## Processes: trace of control plane calls and fatal exit -/

/-- The effect of running a piece of the Go code: the control plane calls it issued, in
order, and either the value it produced or the message of the `log.Fatalf` that ended
the process. -/
structure Proc (α : Type) where
  trace : List Call
  result : Except String α

/-- Code that issues no call and yields `a`. -/
def Proc.pure {α : Type} (a : α) : Proc α := ⟨[], .ok a⟩

/-- Sequencing of Go statements: the second part runs only when the first did not end
the process. -/
def Proc.bind {α β : Type} (x : Proc α) (f : α → Proc β) : Proc β :=
  match x.result with
  | .error msg => ⟨x.trace, .error msg⟩
  | .ok a => ⟨x.trace ++ (f a).trace, (f a).result⟩

instance : Monad Proc where
  pure := Proc.pure
  bind := Proc.bind

/-- Go `log.Fatalf(msg, err)`: the process ends here. -/
def fatal {α : Type} (msg : String) : Proc α := ⟨[], .error msg⟩

/-- A control plane call `c` whose answer is `answer`: the call is recorded and its
answer handed to the caller, which tests `err != nil` itself. -/
def invoke {α : Type} (c : Call) (answer : Option α) : Proc (Option α) := ⟨[c], .ok answer⟩

/-! ## `WakeVirtualMachine` -/

variable {Doc : Type}

/-- The `switch state` statement, lines 118-136. -/
def wakeSwitch (env : Env Doc) (d : Domain) (state : Int) : Proc Unit :=
  if state = DomainShutoff ∨ state = DomainCrashed then do
    let some _ ← invoke (.DomainCreate d) (env.DomainCreate d)
      | fatal "Failed to start domain"
    pure ()
  else if state = DomainPmsuspended then do
    let some _ ← invoke (.DomainPmWakeup d) (env.DomainPmWakeup d)
      | fatal "Failed to pm wakeup domain"
    pure ()
  else if state = DomainPaused then do
    let some _ ← invoke (.DomainResume d) (env.DomainResume d)
      | fatal "Failed to resume domain"
    pure ()
  else
    pure ()

/-- The body of `if strings.EqualFold(list.InnerText(), mac)`, lines 109-138: the state
query, the switch, and the `break` that leaves the loop over the interfaces of `d` with
`macFound = true`. -/
def wakeMatched (env : Env Doc) (d : Domain) : Proc Bool := do
  let some stateInt ← invoke (.DomainGetState d) (env.DomainGetState d)
    | fatal "Failed to check domain state"
  let state := stateInt
  wakeSwitch env d state
  pure true

/-- The loop over the addresses found in the descriptor of `d`, lines 106-140; the
value is `macFound` after the loop. -/
def interfaceLoop (env : Env Doc) (mac : String) (d : Domain) :
    List String → Bool → Proc Bool
  | [], macFound => pure macFound
  | innerText :: rest, macFound =>
    if EqualFold env.SimpleFold innerText mac then
      wakeMatched env d
    else
      interfaceLoop env mac d rest macFound

/-- The loop `for _, d := range domains`, lines 90-141; the value is `macFound` after
the loop. -/
def domainLoop (env : Env Doc) (mac : String) : List Domain → Bool → Proc Bool
  | [], macFound => pure macFound
  | d :: rest, macFound => do
    let some xmldesc ← invoke (.DomainGetXMLDesc d) (env.DomainGetXMLDesc d)
      | fatal "failed retrieving interfaces"
    let some querydoc := env.Parse xmldesc
      | fatal "Failed to parse XML"
    let macFound ← interfaceLoop env mac d (env.Find querydoc) macFound
    domainLoop env mac rest macFound

/-- Go `WakeVirtualMachine(mac)`, lines 70-148. -/
def WakeVirtualMachine (env : Env Doc) (mac : String) : Proc Bool := do
  let some _ ← invoke .DialTimeout env.DialTimeout
    | fatal "Failed to dial libvirt"
  let some _ ← invoke .Connect env.Connect
    | fatal "Failed to connect"
  let some domains ← invoke .ConnectListAllDomains env.ConnectListAllDomains
    | fatal "Failed to retrieve domains"
  let macFound ← domainLoop env mac domains false
  let some _ ← invoke .Disconnect env.Disconnect
    | fatal "Failed to disconnect"
  pure macFound

/-- The packet loop of `main`, lines 57-67, on the destination addresses of the frames
received: one `WakeVirtualMachine` per frame, in capture order; the value is the list of
match / no match reports that were logged. -/
def serve (env : Env Doc) : List String → Proc (List Bool)
  | [] => pure []
  | mac :: rest => do
    let matched ← WakeVirtualMachine env mac
    let reports ← serve env rest
    pure (matched :: reports)

/-! ## Vocabulary of the specification (spec.md, sections 3, 4.2 and 4.3) -/

/-- The power states of the data model. -/
inductive PowerState where
  | Running | ShutOff | Crashed | Paused | PMSuspended | Other
deriving DecidableEq, Repr

/-- The wake actions of the data model. -/
inductive WakeAction where
  | Start | PmWakeup | Resume | NoOp
deriving DecidableEq, Repr

/-- The decision table of section 4.3, row by row. -/
def WakeDecisionTable : PowerState → WakeAction
  | .ShutOff => .Start
  | .Crashed => .Start
  | .PMSuspended => .PmWakeup
  | .Paused => .Resume
  | .Running => .NoOp
  | .Other => .NoOp

/-- The power state named by a state value reported by `DomainGetState`. -/
def PowerState.ofState (state : Int) : PowerState :=
  if state = DomainRunning then .Running
  else if state = DomainShutoff then .ShutOff
  else if state = DomainCrashed then .Crashed
  else if state = DomainPaused then .Paused
  else if state = DomainPmsuspended then .PMSuspended
  else .Other

/-- The control plane calls that carry out a wake action on `d`: Start is
`DomainCreate`, PmWakeup is `DomainPmWakeup`, Resume is `DomainResume`, NoOp is no call. -/
def WakeAction.calls : WakeAction → Domain → List Call
  | .Start, d => [.DomainCreate d]
  | .PmWakeup, d => [.DomainPmWakeup d]
  | .Resume, d => [.DomainResume d]
  | .NoOp, _ => []

/-- The call is one of the three wake primitives. -/
def Call.isWakeAction : Call → Bool
  | .DomainCreate _ => true
  | .DomainPmWakeup _ => true
  | .DomainResume _ => true
  | _ => false

/-- The call is a power state query. -/
def Call.isStateQuery : Call → Bool
  | .DomainGetState _ => true
  | _ => false

/-- The machine a call is about, for the calls that are about one machine. -/
def Call.target : Call → Option Domain
  | .DomainGetXMLDesc d => some d
  | .DomainGetState d => some d
  | .DomainCreate d => some d
  | .DomainPmWakeup d => some d
  | .DomainResume d => some d
  | _ => none

/-- The control plane answers the call `c` without error. -/
def Env.Answers (env : Env Doc) : Call → Bool
  | .DialTimeout => env.DialTimeout.isSome
  | .Connect => env.Connect.isSome
  | .ConnectListAllDomains => env.ConnectListAllDomains.isSome
  | .DomainGetXMLDesc d => (env.DomainGetXMLDesc d).isSome
  | .DomainGetState d => (env.DomainGetState d).isSome
  | .DomainCreate d => (env.DomainCreate d).isSome
  | .DomainPmWakeup d => (env.DomainPmWakeup d).isSome
  | .DomainResume d => (env.DomainResume d).isSome
  | .Disconnect => env.Disconnect.isSome

/-- The `log.Fatalf` message that `WakeVirtualMachine` prints when the call fails. -/
def failureMessage : Call → String
  | .DialTimeout => "Failed to dial libvirt"
  | .Connect => "Failed to connect"
  | .ConnectListAllDomains => "Failed to retrieve domains"
  | .DomainGetXMLDesc _ => "failed retrieving interfaces"
  | .DomainGetState _ => "Failed to check domain state"
  | .DomainCreate _ => "Failed to start domain"
  | .DomainPmWakeup _ => "Failed to pm wakeup domain"
  | .DomainResume _ => "Failed to resume domain"
  | .Disconnect => "Failed to disconnect"

/-- The configured hardware addresses of `d`: what the descriptor of `d` yields, when it
is handed out and parses. -/
def addressesOf (env : Env Doc) (d : Domain) : Option (List String) :=
  ((env.DomainGetXMLDesc d).bind env.Parse).map env.Find

/-- The machine `d` has an interface whose configured address equals `mac` under the
comparison of the matcher. -/
def carries (env : Env Doc) (mac : String) (d : Domain) : Bool :=
  match addressesOf env d with
  | some addresses => addresses.any (fun innerText => EqualFold env.SimpleFold innerText mac)
  | none => false

/-- The power state of `d` as reported by the control plane. -/
def reportedState (env : Env Doc) (d : Domain) : PowerState :=
  match env.DomainGetState d with
  | some state => .ofState state
  | none => .Other

/-- The calls of one round of the machine loop as the specification describes it:
describe the machine and, when it carries the address, query its state and perform the
action of the decision table. -/
def roundCalls (env : Env Doc) (mac : String) (d : Domain) : List Call :=
  .DomainGetXMLDesc d ::
    (if carries env mac d then
      .DomainGetState d :: (WakeDecisionTable (reportedState env d)).calls d
    else [])

/-- No control plane call issued by the run on `mac` fails. -/
def NoCallFails (env : Env Doc) (mac : String) : Prop :=
  ∀ c ∈ (WakeVirtualMachine env mac).trace, env.Answers c = true

/-- Every descriptor handed out for a machine of the inventory parses. -/
def DescriptorsParse (env : Env Doc) (domains : List Domain) : Prop :=
  ∀ d ∈ domains,
    (env.DomainGetXMLDesc d).all (fun xmldesc => (env.Parse xmldesc).isSome) = true

/-- A process keeps to the fatal policy: every call but possibly the last was answered,
and the process ended with `log.Fatalf` exactly when the last call failed (with the
message of that call) or a descriptor did not parse. -/
def KeepsFatalPolicy {α : Type} (env : Env Doc) (p : Proc α) : Prop :=
  match p.result with
  | .ok _ => ∀ c ∈ p.trace, env.Answers c = true
  | .error msg =>
    (msg = "Failed to parse XML" ∧ ∀ c ∈ p.trace, env.Answers c = true) ∨
    ∃ front c, p.trace = front ++ [c] ∧ (∀ k ∈ front, env.Answers k = true) ∧
      env.Answers c = false ∧ msg = failureMessage c

/-! ### Textual forms of a hardware address -/

/-- The separator styles of a textual hardware address. -/
inductive Separator where
  | colon | hyphen | bare
deriving DecidableEq, Repr

/-- The runes written between two octets. -/
def Separator.runes : Separator → List Char
  | .colon => [':']
  | .hyphen => ['-']
  | .bare => []

/-- The hexadecimal digit of value `n % 16`, in the given letter case. -/
def hexDigit (upper : Bool) (n : Nat) : Char :=
  if n % 16 < 10 then Char.ofNat (48 + n % 16)
  else if upper then Char.ofNat (55 + n % 16) else Char.ofNat (87 + n % 16)

/-- The two digits of an octet. -/
def octetRunes (upper : Bool) (b : Nat) : List Char :=
  [hexDigit upper (b / 16), hexDigit upper b]

/-- The octets written in order, separated in the given style. -/
def renderRunes (style : Separator) (upper : Bool) : List Nat → List Char
  | [] => []
  | [b] => octetRunes upper b
  | b :: c :: rest => octetRunes upper b ++ style.runes ++ renderRunes style upper (c :: rest)

/-- The textual form of a hardware address. -/
def render (style : Separator) (upper : Bool) (octets : List Nat) : String :=
  String.mk (renderRunes style upper octets)

/-- The rune is one of the letters among the hexadecimal digits. -/
def isHexLetter (c : Char) : Bool :=
  (decide ('a'.toNat ≤ c.toNat) && decide (c.toNat ≤ 'f'.toNat)) ||
  (decide ('A'.toNat ≤ c.toNat) && decide (c.toNat ≤ 'F'.toNat))

/-- Two runes are the same, or the same hexadecimal letter in different case. -/
def sameUpToHexCase (a b : Char) : Bool :=
  decide (a = b) || (isHexLetter a && isHexLetter b &&
    (decide (a.toNat + 32 = b.toNat) || decide (b.toNat + 32 = a.toNat)))

/-- Rune by rune, the two texts are the same up to the case of hexadecimal letters. -/
def sameUpToHexCaseRunes : List Char → List Char → Bool
  | [], [] => true
  | a :: s, b :: t => sameUpToHexCase a b && sameUpToHexCaseRunes s t
  | _, _ => false

/-- Two strings differ only in the letter case of their hexadecimal digits. -/
def DifferOnlyInHexCase (s t : String) : Prop :=
  sameUpToHexCaseRunes s.toList t.toList = true

/-! ## A laboratory control plane for concrete runs -/

/-- One machine of a laboratory inventory; `addresses = none` is a descriptor that does
not parse. -/
structure Machine where
  dom : Domain
  addresses : Option (List String)
  state : Int

/-- The control plane serving the inventory `inv`, in which the calls selected by
`failing` return an error; descriptors are named after the machine. -/
def lab (inv : List Machine) (failing : Call → Bool) : Env (List String) where
  SimpleFold := id
  Parse := fun xmldesc =>
    (inv.find? (fun m => m.dom.Name ++ ".xml" == xmldesc)).bind (fun m => m.addresses)
  Find := id
  DialTimeout := if failing .DialTimeout then none else some ()
  Connect := if failing .Connect then none else some ()
  ConnectListAllDomains :=
    if failing .ConnectListAllDomains then none else some (inv.map (fun m => m.dom))
  DomainGetXMLDesc := fun d =>
    if failing (.DomainGetXMLDesc d) then none else some (d.Name ++ ".xml")
  DomainGetState := fun d =>
    if failing (.DomainGetState d) then none
    else (inv.find? (fun m => m.dom == d)).map (fun m => m.state)
  DomainCreate := fun d => if failing (.DomainCreate d) then none else some ()
  DomainPmWakeup := fun d => if failing (.DomainPmWakeup d) then none else some ()
  DomainResume := fun d => if failing (.DomainResume d) then none else some ()
  Disconnect := if failing .Disconnect then none else some ()

/-- No call fails. -/
def never (_ : Call) : Bool := false

def vm1 : Domain := ⟨"vm1", [], 1⟩
def vm2 : Domain := ⟨"vm2", [], 2⟩
def vm3 : Domain := ⟨"vm3", [], 3⟩
def vm4 : Domain := ⟨"vm4", [], 4⟩
def vm5 : Domain := ⟨"vm5", [], 5⟩

/-- Two machines configured with the same address, both shut off. -/
def duplicateLab : Env (List String) :=
  lab [⟨vm1, some ["52:54:00:AA:BB:CC"], DomainShutoff⟩,
       ⟨vm2, some ["52:54:00:aa:bb:cc"], DomainShutoff⟩] never

/-- The first machine carries 52:54:00:aa:bb:cc and is paused, the descriptor of the
second machine does not parse, the third machine carries the address and is shut off. -/
def brokenDescriptorLab : Env (List String) :=
  lab [⟨vm3, some ["52:54:00:aa:bb:cc"], DomainPaused⟩,
       ⟨vm1, none, DomainShutoff⟩,
       ⟨vm2, some ["52:54:00:aa:bb:cc"], DomainShutoff⟩] never

/-- The first machine carries 52:54:00:aa:bb:cc and is shut off; the second machine has
another address, and the retrieval of its descriptor fails. -/
def outageLab : Env (List String) :=
  lab [⟨vm1, some ["52:54:00:aa:bb:cc"], DomainShutoff⟩,
       ⟨vm2, some ["00:11:22:33:44:55"], DomainRunning⟩]
    (fun c => c == .DomainGetXMLDesc vm2)

/-- End-to-end scenario 4 of the specification: one running machine. -/
def runningLab : Env (List String) :=
  lab [⟨vm4, some ["11:22:33:44:55:66"], DomainRunning⟩] never

/-- End-to-end scenario 5 of the specification. -/
def strangerLab : Env (List String) :=
  lab [⟨vm5, some ["AA:AA:AA:AA:AA:AA"], DomainShutoff⟩] never

/-- Five machines: the first has another address, the second has two interfaces that
both carry 52:54:00:aa:bb:cc, the others carry the address in the states Paused, Running
and PMSuspended. -/
def mixedLab : Env (List String) :=
  lab [⟨vm2, some ["00:11:22:33:44:55"], DomainShutoff⟩,
       ⟨vm1, some ["52:54:00:AA:BB:CC", "52:54:00:aa:bb:cc"], DomainShutoff⟩,
       ⟨vm3, some ["0a:0b:0c:0d:0e:0f", "52:54:00:Aa:Bb:Cc"], DomainPaused⟩,
       ⟨vm4, some ["52:54:00:aa:bb:cc"], DomainRunning⟩,
       ⟨vm5, some ["52:54:00:aa:bb:cc"], DomainPmsuspended⟩] never

/-- One machine, whose descriptor does not parse. -/
def unreadableLab : Env (List String) :=
  lab [⟨vm1, none, DomainShutoff⟩] never

/-- An enumeration that lists the same machine twice; it carries 52:54:00:aa:bb:cc and
is shut off. -/
def twiceListedLab : Env (List String) :=
  lab [⟨vm1, some ["52:54:00:aa:bb:cc"], DomainShutoff⟩,
       ⟨vm1, some ["52:54:00:aa:bb:cc"], DomainShutoff⟩] never


/-! # Theorems -/

variable {α β : Type}

/-! ## Processes -/

@[simp]
theorem pure_trace (a : α) : (pure a : Proc α).trace = [] := rfl

@[simp]
theorem pure_result (a : α) : (pure a : Proc α).result = .ok a := rfl

@[simp]
theorem fatal_trace (msg : String) : (fatal msg : Proc α).trace = [] := rfl

@[simp]
theorem fatal_result (msg : String) : (fatal msg : Proc α).result = .error msg := rfl

@[simp]
theorem invoke_bind (c : Call) (answer : Option α) (f : Option α → Proc β) :
    (invoke c answer >>= f) = ⟨c :: (f answer).trace, (f answer).result⟩ := rfl

theorem bind_ok {x : Proc α} {a : α} (h : x.result = .ok a) (f : α → Proc β) :
    (x >>= f) = ⟨x.trace ++ (f a).trace, (f a).result⟩ := by
  show Proc.bind x f = _
  unfold Proc.bind; rw [h]

theorem bind_error {x : Proc α} {msg : String} (h : x.result = .error msg) (f : α → Proc β) :
    (x >>= f) = ⟨x.trace, .error msg⟩ := by
  show Proc.bind x f = _
  unfold Proc.bind; rw [h]

theorem proc_ext {p q : Proc α} (ht : p.trace = q.trace) (hr : p.result = q.result) : p = q := by
  cases p; cases q; simp_all

/-! ## The wake decision -/

theorem wakeSwitch_trace (env : Env Doc) (d : Domain) (state : Int) :
    (wakeSwitch env d state).trace = (WakeDecisionTable (PowerState.ofState state)).calls d := by
  unfold wakeSwitch PowerState.ofState DomainShutoff DomainCrashed DomainPmsuspended
    DomainPaused DomainRunning
  by_cases h5 : state = 5
  · subst h5; simp [WakeDecisionTable, WakeAction.calls]; cases env.DomainCreate d <;> rfl
  by_cases h6 : state = 6
  · subst h6; simp [WakeDecisionTable, WakeAction.calls]; cases env.DomainCreate d <;> rfl
  by_cases h7 : state = 7
  · subst h7; simp [WakeDecisionTable, WakeAction.calls]; cases env.DomainPmWakeup d <;> rfl
  by_cases h3 : state = 3
  · subst h3; simp [WakeDecisionTable, WakeAction.calls]; cases env.DomainResume d <;> rfl
  by_cases h1 : state = 1
  · subst h1; simp [WakeDecisionTable, WakeAction.calls]
  · simp [h5, h6, h7, h3, h1, WakeDecisionTable, WakeAction.calls]

theorem wakeSwitch_result (env : Env Doc) (d : Domain) (state : Int) :
    (wakeSwitch env d state).result =
      match (WakeDecisionTable (PowerState.ofState state)).calls d with
      | [] => .ok ()
      | c :: _ => if env.Answers c = true then .ok () else .error (failureMessage c) := by
  unfold wakeSwitch PowerState.ofState DomainShutoff DomainCrashed DomainPmsuspended
    DomainPaused DomainRunning
  by_cases h5 : state = 5
  · subst h5; simp [WakeDecisionTable, WakeAction.calls, Env.Answers, failureMessage]
    cases env.DomainCreate d <;> rfl
  by_cases h6 : state = 6
  · subst h6; simp [WakeDecisionTable, WakeAction.calls, Env.Answers, failureMessage]
    cases env.DomainCreate d <;> rfl
  by_cases h7 : state = 7
  · subst h7; simp [WakeDecisionTable, WakeAction.calls, Env.Answers, failureMessage]
    cases env.DomainPmWakeup d <;> rfl
  by_cases h3 : state = 3
  · subst h3; simp [WakeDecisionTable, WakeAction.calls, Env.Answers, failureMessage]
    cases env.DomainResume d <;> rfl
  by_cases h1 : state = 1
  · subst h1; simp [WakeDecisionTable, WakeAction.calls]
  · simp [h5, h6, h7, h3, h1, WakeDecisionTable, WakeAction.calls]

theorem calls_injective (a b : WakeAction) (d : Domain) (h : a.calls d = b.calls d) : a = b := by
  cases a <;> cases b <;> simp [WakeAction.calls] at h <;> rfl

/-- C1: the switch of `WakeVirtualMachine` selects, for every reported state value,
exactly one wake action, the one of the decision table: `DomainCreate` for ShutOff (5)
and Crashed (6), `DomainPmWakeup` for PMSuspended (7), `DomainResume` for Paused (3), and
no call for Running (1) and for every other state value; the calls issued are the calls
of that action and of no other action, whatever the control plane answers. -/
theorem wake_decision_total (env : Env Doc) (d : Domain) (state : Int) :
    (∃! a : WakeAction, (wakeSwitch env d state).trace = a.calls d) ∧
    (wakeSwitch env d state).trace = (WakeDecisionTable (PowerState.ofState state)).calls d ∧
    (wakeSwitch env d state).trace =
      (if state = 5 ∨ state = 6 then [.DomainCreate d]
       else if state = 7 then [.DomainPmWakeup d]
       else if state = 3 then [.DomainResume d]
       else []) ∧
    (wakeSwitch env d DomainShutoff).trace = WakeAction.Start.calls d ∧
    (wakeSwitch env d DomainCrashed).trace = WakeAction.Start.calls d ∧
    (wakeSwitch env d DomainPmsuspended).trace = WakeAction.PmWakeup.calls d ∧
    (wakeSwitch env d DomainPaused).trace = WakeAction.Resume.calls d ∧
    (wakeSwitch env d DomainRunning).trace = WakeAction.NoOp.calls d := by
  refine ⟨⟨_, wakeSwitch_trace env d state, fun b hb => ?_⟩, wakeSwitch_trace env d state,
    ?_, wakeSwitch_trace env d _, wakeSwitch_trace env d _, wakeSwitch_trace env d _,
    wakeSwitch_trace env d _, wakeSwitch_trace env d _⟩
  · exact calls_injective _ _ d ((wakeSwitch_trace env d state).symm.trans hb).symm
  · rw [wakeSwitch_trace]
    unfold PowerState.ofState DomainShutoff DomainCrashed DomainPmsuspended
      DomainPaused DomainRunning
    by_cases h5 : state = 5
    · subst h5; simp [WakeDecisionTable, WakeAction.calls]
    by_cases h6 : state = 6
    · subst h6; simp [WakeDecisionTable, WakeAction.calls]
    by_cases h7 : state = 7
    · subst h7; simp [WakeDecisionTable, WakeAction.calls]
    by_cases h3 : state = 3
    · subst h3; simp [WakeDecisionTable, WakeAction.calls]
    by_cases h1 : state = 1
    · subst h1; simp [WakeDecisionTable, WakeAction.calls]
    · simp [h5, h6, h7, h3, h1, WakeDecisionTable, WakeAction.calls]

/-! ## Address comparison -/

theorem runeFoldEq_self (F : Char → Char) (c : Char) : runeFoldEq F c c = true := by
  simp [runeFoldEq]

theorem runeFoldEq_of_sameUpToHexCase (F : Char → Char) (a b : Char)
    (h : sameUpToHexCase a b = true) : runeFoldEq F a b = true ∧ runeFoldEq F b a = true := by
  have hA : 'A'.toNat = 65 := by decide
  have hZ : 'Z'.toNat = 90 := by decide
  have ha : 'a'.toNat = 97 := by decide
  have hf : 'f'.toNat = 102 := by decide
  have hF : 'F'.toNat = 70 := by decide
  simp only [sameUpToHexCase, isHexLetter, Bool.or_eq_true, Bool.and_eq_true,
    decide_eq_true_eq, hA, ha, hf, hF] at h
  rcases h with h | ⟨⟨h1, h2⟩, h3⟩
  · subst h; exact ⟨runeFoldEq_self F a, runeFoldEq_self F a⟩
  · have hne : a ≠ b := by
      intro e; subst e; omega
    have hne2 : b ≠ a := fun e => hne e.symm
    constructor
    · unfold runeFoldEq
      rw [if_neg hne2]
      simp only [RuneSelf, hA, hZ, ha]
      split_ifs <;> simp <;> omega
    · unfold runeFoldEq
      rw [if_neg hne]
      simp only [RuneSelf, hA, hZ, ha]
      split_ifs <;> simp <;> omega

theorem equalFoldRunes_of_sameUpToHexCase (F : Char → Char) :
    ∀ s t : List Char, sameUpToHexCaseRunes s t = true →
      EqualFoldRunes F s t = true ∧ EqualFoldRunes F t s = true
  | [], [], _ => by simp [EqualFoldRunes]
  | [], _ :: _, h => by simp [sameUpToHexCaseRunes] at h
  | _ :: _, [], h => by simp [sameUpToHexCaseRunes] at h
  | a :: s, b :: t, h => by
    simp only [sameUpToHexCaseRunes, Bool.and_eq_true] at h
    have h1 := runeFoldEq_of_sameUpToHexCase F a b h.1
    have h2 := equalFoldRunes_of_sameUpToHexCase F s t h.2
    simp [EqualFoldRunes, h1.1, h1.2, h2.1, h2.2]

theorem runeFoldEq_hexDigit (F : Char → Char) (u₁ u₂ : Bool) (n : Nat) :
    runeFoldEq F (hexDigit u₁ n) (hexDigit u₂ n) = true := by
  have hn : n % 16 < 16 := Nat.mod_lt _ (by decide)
  unfold hexDigit
  generalize n % 16 = k at hn
  interval_cases k <;> cases u₁ <;> cases u₂ <;> rfl

theorem runeFoldEq_hexDigit_colon (F : Char → Char) (u : Bool) (n : Nat) :
    runeFoldEq F (hexDigit u n) ':' = false ∧ runeFoldEq F ':' (hexDigit u n) = false ∧
    runeFoldEq F (hexDigit u n) '-' = false ∧ runeFoldEq F '-' (hexDigit u n) = false := by
  have hn : n % 16 < 16 := Nat.mod_lt _ (by decide)
  unfold hexDigit
  generalize n % 16 = k at hn
  interval_cases k <;> cases u <;> exact ⟨rfl, rfl, rfl, rfl⟩

theorem runeFoldEq_colon_hyphen (F : Char → Char) :
    runeFoldEq F ':' '-' = false ∧ runeFoldEq F '-' ':' = false := ⟨rfl, rfl⟩


/-- C3 (as the code behaves): the comparison of `strings.EqualFold` is sensitive to the
separator style.  Two textual forms of the same six octets, in any letter case, are
judged equal exactly when they use the same separator style. -/
theorem equalFold_separator_sensitive (F : Char → Char) (octets : List Nat)
    (h : octets.length = 6) (s₁ s₂ : Separator) (u₁ u₂ : Bool) :
    EqualFold F (render s₁ u₁ octets) (render s₂ u₂ octets) = decide (s₁ = s₂) := by
  match octets, h with
  | [a, b, c, d, e, f], _ =>
    have hc := fun u n => runeFoldEq_hexDigit_colon F u n
    have hch := runeFoldEq_colon_hyphen F
    cases s₁ <;> cases s₂ <;>
      simp [EqualFold, render, renderRunes, octetRunes, Separator.runes, EqualFoldRunes,
        runeFoldEq_hexDigit, runeFoldEq_self, hc, hch]

/-- Witness for C3 (amended): the colon and the hyphen form of 52:54:00:aa:bb:cc. -/
theorem equalFold_separator_sensitive_witness :
    [0x52, 0x54, 0x00, 0xaa, 0xbb, 0xcc].length = 6 ∧
    EqualFold id (render .colon false [0x52, 0x54, 0x00, 0xaa, 0xbb, 0xcc])
      (render .hyphen false [0x52, 0x54, 0x00, 0xaa, 0xbb, 0xcc]) =
      decide (Separator.colon = Separator.hyphen) :=
  ⟨by decide, equalFold_separator_sensitive id _ (by decide) _ _ _ _⟩

/-- C3 fails as stated: the colon form of 52:54:00:aa:bb:cc is judged different from
its hyphen form and from its unseparated form, and a machine configured with the hyphen
form is not matched by the colon form. -/
theorem separator_insensitivity_counterexample :
    EqualFold id "52:54:00:aa:bb:cc" "52-54-00-aa-bb-cc" = false ∧
    EqualFold id "52:54:00:aa:bb:cc" "525400aabbcc" = false ∧
    carries (lab [⟨vm1, some ["52-54-00-aa-bb-cc"], DomainShutoff⟩] never)
      "52:54:00:aa:bb:cc" vm1 = false ∧
    WakeVirtualMachine (lab [⟨vm1, some ["52-54-00-aa-bb-cc"], DomainShutoff⟩] never)
      "52:54:00:aa:bb:cc" =
      ⟨[.DialTimeout, .Connect, .ConnectListAllDomains, .DomainGetXMLDesc vm1, .Disconnect],
        .ok false⟩ := by
  refine ⟨by decide, by decide, by decide, rfl⟩

/-- C4: strings that differ only in the letter case of their hexadecimal digits are
judged equal by `strings.EqualFold`, in both argument orders; a machine configured with
52:54:00:AA:BB:CC is matched by the target 52:54:00:aa:bb:cc and started, and a machine
configured with AA:BB:CC:DD:EE:FF is matched by aa:bb:cc:dd:ee:ff and resumed. -/
theorem equalFold_case_insensitive (F : Char → Char) :
    (∀ s t : String, DifferOnlyInHexCase s t →
      EqualFold F s t = true ∧ EqualFold F t s = true) ∧
    WakeVirtualMachine (lab [⟨vm1, some ["52:54:00:AA:BB:CC"], DomainShutoff⟩] never)
      "52:54:00:aa:bb:cc" =
      ⟨[.DialTimeout, .Connect, .ConnectListAllDomains, .DomainGetXMLDesc vm1,
        .DomainGetState vm1, .DomainCreate vm1, .Disconnect], .ok true⟩ ∧
    WakeVirtualMachine (lab [⟨vm3, some ["AA:BB:CC:DD:EE:FF"], DomainPaused⟩] never)
      "aa:bb:cc:dd:ee:ff" =
      ⟨[.DialTimeout, .Connect, .ConnectListAllDomains, .DomainGetXMLDesc vm3,
        .DomainGetState vm3, .DomainResume vm3, .Disconnect], .ok true⟩ :=
  ⟨fun s t h => equalFoldRunes_of_sameUpToHexCase F s.toList t.toList h, rfl, rfl⟩

/-- Witness for C4: two spellings of 52:54:00:aa:bb:cc in mixed letter case. -/
theorem equalFold_case_insensitive_witness :
    DifferOnlyInHexCase "52:54:00:AA:bb:cC" "52:54:00:aa:BB:cc" ∧
    EqualFold id "52:54:00:AA:bb:cC" "52:54:00:aa:BB:cc" = true ∧
    EqualFold id "52:54:00:aa:BB:cc" "52:54:00:AA:bb:cC" = true :=
  ⟨by unfold DifferOnlyInHexCase; decide,
    (equalFold_case_insensitive id).1 _ _ (by unfold DifferOnlyInHexCase; decide)⟩

/-! ## Anatomy of the loops -/

theorem wakeMatched_trace (env : Env Doc) (d : Domain) :
    (wakeMatched env d).trace = .DomainGetState d ::
      (match env.DomainGetState d with
       | some state => (wakeSwitch env d state).trace
       | none => []) := by
  unfold wakeMatched
  cases env.DomainGetState d with
  | none => simp
  | some state =>
    simp
    cases hr : (wakeSwitch env d state).result with
    | error m => simp [bind_error hr]
    | ok u => simp [bind_ok hr]

theorem wakeMatched_result (env : Env Doc) (d : Domain) :
    (wakeMatched env d).result =
      (match env.DomainGetState d with
       | some state => (wakeSwitch env d state).result.map (fun _ => true)
       | none => .error "Failed to check domain state") := by
  unfold wakeMatched
  cases env.DomainGetState d with
  | none => simp
  | some state =>
    simp
    cases hr : (wakeSwitch env d state).result with
    | error m => simp [bind_error hr, Except.map]
    | ok u => simp [bind_ok hr, Except.map]

theorem interfaceLoop_eq (env : Env Doc) (mac : String) (d : Domain) (macFound : Bool) :
    ∀ addresses : List String, interfaceLoop env mac d addresses macFound =
      if addresses.any (fun innerText => EqualFold env.SimpleFold innerText mac) = true
      then wakeMatched env d else pure macFound
  | [] => by simp [interfaceLoop]
  | innerText :: rest => by
    unfold interfaceLoop
    by_cases h : EqualFold env.SimpleFold innerText mac = true
    · simp [h]
    · simp [h, interfaceLoop_eq env mac d macFound rest]

theorem domainLoop_nil (env : Env Doc) (mac : String) (macFound : Bool) :
    domainLoop env mac [] macFound = pure macFound := by
  simp [domainLoop]

theorem domainLoop_cons_undescribed (env : Env Doc) (mac : String) (d : Domain)
    (rest : List Domain) (macFound : Bool) (h : env.DomainGetXMLDesc d = none) :
    domainLoop env mac (d :: rest) macFound =
      ⟨[.DomainGetXMLDesc d], .error "failed retrieving interfaces"⟩ := by
  simp [domainLoop, h]

theorem domainLoop_cons_unparsed (env : Env Doc) (mac : String) (d : Domain)
    (rest : List Domain) (macFound : Bool) (xmldesc : String)
    (h : env.DomainGetXMLDesc d = some xmldesc) (hp : env.Parse xmldesc = none) :
    domainLoop env mac (d :: rest) macFound =
      ⟨[.DomainGetXMLDesc d], .error "Failed to parse XML"⟩ := by
  simp [domainLoop, h, hp]

theorem domainLoop_cons_parsed (env : Env Doc) (mac : String) (d : Domain)
    (rest : List Domain) (macFound : Bool) (xmldesc : String) (querydoc : Doc)
    (h : env.DomainGetXMLDesc d = some xmldesc) (hp : env.Parse xmldesc = some querydoc) :
    domainLoop env mac (d :: rest) macFound =
      ⟨.DomainGetXMLDesc d ::
        (interfaceLoop env mac d (env.Find querydoc) macFound >>=
          fun found => domainLoop env mac rest found).trace,
       (interfaceLoop env mac d (env.Find querydoc) macFound >>=
          fun found => domainLoop env mac rest found).result⟩ := by
  simp [domainLoop, h, hp]

theorem carries_eq (env : Env Doc) (mac : String) (d : Domain) (xmldesc : String)
    (querydoc : Doc) (h : env.DomainGetXMLDesc d = some xmldesc)
    (hp : env.Parse xmldesc = some querydoc) :
    carries env mac d =
      (env.Find querydoc).any (fun innerText => EqualFold env.SimpleFold innerText mac) := by
  simp [carries, addressesOf, h, hp]

theorem run_eq (env : Env Doc) (mac : String) (domains : List Domain)
    (hd : env.DialTimeout = some ()) (hc : env.Connect = some ())
    (hl : env.ConnectListAllDomains = some domains) :
    WakeVirtualMachine env mac =
      ⟨.DialTimeout :: .Connect :: .ConnectListAllDomains ::
        ((domainLoop env mac domains false).trace ++
          (match (domainLoop env mac domains false).result with
           | .ok _ => [.Disconnect]
           | .error _ => [])),
       match (domainLoop env mac domains false).result with
       | .ok found =>
         if env.Disconnect.isSome = true then .ok found else .error "Failed to disconnect"
       | .error msg => .error msg⟩ := by
  unfold WakeVirtualMachine
  simp [hd, hc, hl]
  cases hr : (domainLoop env mac domains false).result with
  | error m => simp [bind_error hr]
  | ok found =>
    simp [bind_ok hr]
    cases env.Disconnect <;> simp

/-! ## The fatal policy -/

theorem policy_pure (env : Env Doc) (a : α) : KeepsFatalPolicy env (pure a : Proc α) := by
  simp [KeepsFatalPolicy]

theorem policy_failed (env : Env Doc) (c : Call) (h : env.Answers c = false) :
    KeepsFatalPolicy env (⟨[c], .error (failureMessage c)⟩ : Proc α) := by
  simp only [KeepsFatalPolicy]
  exact Or.inr ⟨[], c, rfl, by simp, h, rfl⟩

theorem policy_unparsed (env : Env Doc) (c : Call) (h : env.Answers c = true) :
    KeepsFatalPolicy env (⟨[c], .error "Failed to parse XML"⟩ : Proc α) := by
  simp [KeepsFatalPolicy, h]

theorem policy_append (env : Env Doc) (front : List Call) (p : Proc α)
    (hf : ∀ c ∈ front, env.Answers c = true) (hp : KeepsFatalPolicy env p) :
    KeepsFatalPolicy env (⟨front ++ p.trace, p.result⟩ : Proc α) := by
  obtain ⟨tr, res⟩ := p
  cases res with
  | ok a =>
    simp only [KeepsFatalPolicy] at hp ⊢
    intro c hc
    rcases List.mem_append.1 hc with h | h
    · exact hf c h
    · exact hp c h
  | error msg =>
    simp only [KeepsFatalPolicy] at hp ⊢
    rcases hp with ⟨hm, hall⟩ | ⟨fr, c, htr, hfr, hc, hm⟩
    · refine Or.inl ⟨hm, fun c hc => ?_⟩
      rcases List.mem_append.1 hc with h | h
      · exact hf c h
      · exact hall c h
    · refine Or.inr ⟨front ++ fr, c, by simp [htr], fun k hk => ?_, hc, hm⟩
      rcases List.mem_append.1 hk with h | h
      · exact hf k h
      · exact hfr k h

theorem policy_cons (env : Env Doc) (c : Call) (p : Proc α)
    (hc : env.Answers c = true) (hp : KeepsFatalPolicy env p) :
    KeepsFatalPolicy env (⟨c :: p.trace, p.result⟩ : Proc α) :=
  policy_append env [c] p (by simpa using hc) hp

theorem policy_bind (env : Env Doc) (x : Proc α) (f : α → Proc β)
    (hx : KeepsFatalPolicy env x) (hf : ∀ a, x.result = .ok a → KeepsFatalPolicy env (f a)) :
    KeepsFatalPolicy env (x >>= f) := by
  cases hr : x.result with
  | error msg =>
    rw [bind_error hr]
    simp only [KeepsFatalPolicy, hr] at hx ⊢
    exact hx
  | ok a =>
    rw [bind_ok hr]
    refine policy_append env x.trace (f a) ?_ (hf a hr)
    simpa only [KeepsFatalPolicy, hr] using hx

theorem policy_wakeSwitch (env : Env Doc) (d : Domain) (state : Int) :
    KeepsFatalPolicy env (wakeSwitch env d state) := by
  have ht := wakeSwitch_trace env d state
  have hr := wakeSwitch_result env d state
  generalize wakeSwitch env d state = p at ht hr
  obtain ⟨tr, res⟩ := p
  simp only at ht hr
  subst ht
  cases hcalls : (WakeDecisionTable (PowerState.ofState state)).calls d with
  | nil =>
    rw [hcalls] at hr
    simp only at hr
    subst hr
    simp [KeepsFatalPolicy]
  | cons c rest =>
    have hrest : rest = [] := by
      cases hw : WakeDecisionTable (PowerState.ofState state) <;>
        simp [hw, WakeAction.calls] at hcalls <;> simp [hcalls.2]
    subst hrest
    rw [hcalls] at hr
    simp only at hr
    by_cases hc : env.Answers c = true
    · rw [if_pos hc] at hr
      subst hr
      simpa [KeepsFatalPolicy] using hc
    · rw [if_neg hc] at hr
      subst hr
      exact policy_failed env c (by simpa using hc)

theorem policy_wakeMatched (env : Env Doc) (d : Domain) :
    KeepsFatalPolicy env (wakeMatched env d) := by
  have ht := wakeMatched_trace env d
  have hr := wakeMatched_result env d
  generalize wakeMatched env d = p at ht hr
  obtain ⟨tr, res⟩ := p
  simp only at ht hr
  subst ht hr
  cases hs : env.DomainGetState d with
  | none =>
    exact policy_failed env (.DomainGetState d) (by simp [Env.Answers, hs])
  | some state =>
    have hsw := policy_wakeSwitch env d state
    have hq : env.Answers (.DomainGetState d) = true := by simp [Env.Answers, hs]
    refine policy_cons env (.DomainGetState d)
      ⟨(wakeSwitch env d state).trace, (wakeSwitch env d state).result.map (fun _ => true)⟩ hq ?_
    cases hres : (wakeSwitch env d state).result with
    | error msg => simpa [KeepsFatalPolicy, hres, Except.map] using hsw
    | ok u => simpa [KeepsFatalPolicy, hres, Except.map] using hsw

theorem policy_interfaceLoop (env : Env Doc) (mac : String) (d : Domain)
    (addresses : List String) (macFound : Bool) :
    KeepsFatalPolicy env (interfaceLoop env mac d addresses macFound) := by
  rw [interfaceLoop_eq]
  split_ifs
  · exact policy_wakeMatched env d
  · exact policy_pure env macFound

theorem policy_domainLoop (env : Env Doc) (mac : String) :
    ∀ (domains : List Domain) (macFound : Bool),
      KeepsFatalPolicy env (domainLoop env mac domains macFound)
  | [], macFound => by rw [domainLoop_nil]; exact policy_pure env macFound
  | d :: rest, macFound => by
    cases h : env.DomainGetXMLDesc d with
    | none =>
      rw [domainLoop_cons_undescribed env mac d rest macFound h]
      exact policy_failed env (.DomainGetXMLDesc d) (by simp [Env.Answers, h])
    | some xmldesc =>
      have hq : env.Answers (.DomainGetXMLDesc d) = true := by simp [Env.Answers, h]
      cases hp : env.Parse xmldesc with
      | none =>
        rw [domainLoop_cons_unparsed env mac d rest macFound xmldesc h hp]
        exact policy_unparsed env _ hq
      | some querydoc =>
        rw [domainLoop_cons_parsed env mac d rest macFound xmldesc querydoc h hp]
        exact policy_cons env _ _ hq
          (policy_bind env _ _ (policy_interfaceLoop env mac d _ macFound)
            (fun found _ => policy_domainLoop env mac rest found))

theorem policy_run (env : Env Doc) (mac : String) :
    KeepsFatalPolicy env (WakeVirtualMachine env mac) := by
  cases hd : env.DialTimeout with
  | none =>
    have : WakeVirtualMachine env mac = ⟨[.DialTimeout], .error (failureMessage .DialTimeout)⟩ := by
      simp [WakeVirtualMachine, hd, failureMessage]
    rw [this]; exact policy_failed env _ (by simp [Env.Answers, hd])
  | some u =>
    cases hc : env.Connect with
    | none =>
      have : WakeVirtualMachine env mac =
          ⟨[.DialTimeout] ++ [.Connect], .error (failureMessage .Connect)⟩ := by
        simp [WakeVirtualMachine, hd, hc, failureMessage]
      rw [this]
      exact policy_append env [.DialTimeout] ⟨[.Connect], _⟩ (by simp [Env.Answers, hd])
        (policy_failed env _ (by simp [Env.Answers, hc]))
    | some v =>
      cases hl : env.ConnectListAllDomains with
      | none =>
        have : WakeVirtualMachine env mac =
            ⟨[.DialTimeout, .Connect] ++ [.ConnectListAllDomains],
              .error (failureMessage .ConnectListAllDomains)⟩ := by
          simp [WakeVirtualMachine, hd, hc, hl, failureMessage]
        rw [this]
        exact policy_append env [.DialTimeout, .Connect] ⟨[.ConnectListAllDomains], _⟩
          (by simp [Env.Answers, hd, hc]) (policy_failed env _ (by simp [Env.Answers, hl]))
      | some domains =>
        have hfront : ∀ c ∈ [Call.DialTimeout, .Connect, .ConnectListAllDomains],
            env.Answers c = true := by simp [Env.Answers, hd, hc, hl]
        have hloop := policy_domainLoop env mac domains false
        rw [run_eq env mac domains hd hc hl]
        cases hr : (domainLoop env mac domains false).result with
        | error msg =>
          have := policy_append env [.DialTimeout, .Connect, .ConnectListAllDomains] _
            hfront hloop
          simpa [hr] using this
        | ok found =>
          have hall : ∀ c ∈ (domainLoop env mac domains false).trace, env.Answers c = true := by
            simpa only [KeepsFatalPolicy, hr] using hloop
          cases hdis : env.Disconnect with
          | none =>
            have := policy_append env
              ([.DialTimeout, .Connect, .ConnectListAllDomains] ++
                (domainLoop env mac domains false).trace)
              (⟨[.Disconnect], .error (failureMessage .Disconnect)⟩ : Proc Bool)
              (by
                intro c hc'
                rcases List.mem_append.1 hc' with h | h
                · exact hfront c h
                · exact hall c h)
              (policy_failed env _ (by simp [Env.Answers, hdis]))
            simpa [failureMessage] using this
          | some w =>
            simp only [KeepsFatalPolicy, Option.isSome_some, if_true]
            intro c hc'
            simp only [List.mem_cons, List.mem_append, List.mem_singleton] at hc'
            rcases hc' with h | h | h | h | h
            · subst h; simp [Env.Answers, hd]
            · subst h; simp [Env.Answers, hc]
            · subst h; simp [Env.Answers, hl]
            · exact hall c h
            · rcases h with h | h
              · subst h; simp [Env.Answers, hdis]
              · simp at h

/-- C8: every control plane failure is fatal at the failing call.  If a call issued in
a run of `WakeVirtualMachine` is not answered (dial, connect, enumeration, descriptor
retrieval, state query, one of the three wake primitives, or disconnect, on whatever
machine and after whatever earlier calls), then it is the last call of the run, every
call before it was answered, and the run ends with the `log.Fatalf` of that call
without a match / no match result; and a run that returns a result had all its calls
answered. -/
theorem control_plane_failure_is_fatal (env : Env Doc) (mac : String) :
    (∀ (front back : List Call) (c : Call),
      (WakeVirtualMachine env mac).trace = front ++ c :: back → env.Answers c = false →
        back = [] ∧ (∀ k ∈ front, env.Answers k = true) ∧
        (WakeVirtualMachine env mac).result = .error (failureMessage c) ∧
        ∀ b, (WakeVirtualMachine env mac).result ≠ .ok b) ∧
    (∀ b, (WakeVirtualMachine env mac).result = .ok b →
      ∀ c ∈ (WakeVirtualMachine env mac).trace, env.Answers c = true) := by
  have hpol := policy_run env mac
  generalize WakeVirtualMachine env mac = p at hpol
  obtain ⟨tr, res⟩ := p
  constructor
  · intro front back c htr hc
    simp only at htr
    have hmem : c ∈ tr := by rw [htr]; simp
    cases res with
    | ok b =>
      simp only [KeepsFatalPolicy] at hpol
      rw [hpol c hmem] at hc; cases hc
    | error msg =>
      simp only [KeepsFatalPolicy] at hpol
      rcases hpol with ⟨_, hall⟩ | ⟨fr, k, hfr, hans, hk, hm⟩
      · rw [hall c hmem] at hc; cases hc
      · have heq : front ++ c :: back = fr ++ [k] := htr.symm.trans hfr
        rcases List.append_eq_append_iff.1 heq with ⟨m, h1, h2⟩ | ⟨m, h1, h2⟩
        · -- fr = front ++ m, c :: back = m ++ [k]
          cases m with
          | nil =>
            simp only [List.nil_append, List.cons.injEq] at h2
            obtain ⟨hck, hb⟩ := h2
            subst hck
            simp only [List.append_nil] at h1
            subst h1
            exact ⟨hb, hans, by simp [hm], by simp⟩
          | cons x m =>
            simp only [List.cons_append, List.cons.injEq] at h2
            have : c ∈ fr := by rw [h1, h2.1]; simp
            rw [hans c this] at hc; cases hc
        · -- front = fr ++ m, [k] = m ++ c :: back
          have hlen := congrArg List.length h2
          simp only [List.length_append, List.length_cons, List.length_nil] at hlen
          have hm0 : m = [] := List.length_eq_zero.1 (by omega)
          have hb0 : back = [] := List.length_eq_zero.1 (by omega)
          subst hm0 hb0
          simp only [List.nil_append, List.cons.injEq, and_true] at h2
          subst h2
          simp only [List.append_nil] at h1
          subst h1
          exact ⟨rfl, hans, by simp [hm], by simp⟩
  · intro b hres c hc
    simp only at hres
    subst hres
    simp only [KeepsFatalPolicy] at hpol
    exact hpol c hc

/-! ## Sequencing lemmas -/

theorem pure_bind_proc (a : α) (f : α → Proc β) : (pure a >>= f) = f a := rfl

theorem bind_result_ok {x : Proc α} {f : α → Proc β} {b : β} (h : (x >>= f).result = .ok b) :
    ∃ a, x.result = .ok a ∧ (f a).result = .ok b := by
  cases hr : x.result with
  | error msg => rw [bind_error hr] at h; cases h
  | ok a => rw [bind_ok hr] at h; exact ⟨a, rfl, h⟩

theorem mem_bind_trace {x : Proc α} {f : α → Proc β} {c : Call} (h : c ∈ (x >>= f).trace) :
    c ∈ x.trace ∨ ∃ a, x.result = .ok a ∧ c ∈ (f a).trace := by
  cases hr : x.result with
  | error msg => rw [bind_error hr] at h; exact Or.inl h
  | ok a =>
    rw [bind_ok hr] at h
    rcases List.mem_append.1 h with h | h
    · exact Or.inl h
    · exact Or.inr ⟨a, rfl, h⟩

theorem mem_trace_bind {x : Proc α} (f : α → Proc β) {c : Call} (h : c ∈ x.trace) :
    c ∈ (x >>= f).trace := by
  cases hr : x.result with
  | error msg => rw [bind_error hr]; exact h
  | ok a => rw [bind_ok hr]; exact List.mem_append_left _ h

theorem cons_bind (c : Call) (p : Proc α) (f : α → Proc β) :
    ((⟨c :: p.trace, p.result⟩ : Proc α) >>= f) = ⟨c :: (p >>= f).trace, (p >>= f).result⟩ := by
  obtain ⟨tr, res⟩ := p
  cases res <;> rfl

theorem bind_assoc_proc (x : Proc α) (f : α → Proc β) {γ : Type} (g : β → Proc γ) :
    ((x >>= f) >>= g) = (x >>= fun a => f a >>= g) := by
  cases hr : x.result with
  | error msg =>
    have h1 : (x >>= f).result = .error msg := by rw [bind_error hr]
    rw [bind_error h1, bind_error hr, bind_error hr]
  | ok a =>
    rw [bind_ok hr (fun a => f a >>= g)]
    cases hf : (f a).result with
    | error msg =>
      have h1 : (x >>= f).result = .error msg := by rw [bind_ok hr]; exact hf
      rw [bind_error h1, bind_error hf, bind_ok hr]
    | ok b =>
      have h1 : (x >>= f).result = .ok b := by rw [bind_ok hr]; exact hf
      rw [bind_ok h1, bind_ok hf, bind_ok hr]
      simp

theorem domainLoop_append (env : Env Doc) (mac : String) (back : List Domain) :
    ∀ (front : List Domain) (macFound : Bool),
      domainLoop env mac (front ++ back) macFound =
        (domainLoop env mac front macFound >>= fun found => domainLoop env mac back found)
  | [], macFound => by
    rw [domainLoop_nil, pure_bind_proc]; rfl
  | d :: front, macFound => by
    rw [List.cons_append]
    cases h : env.DomainGetXMLDesc d with
    | none =>
      rw [domainLoop_cons_undescribed env mac d _ macFound h,
        domainLoop_cons_undescribed env mac d _ macFound h]
      rfl
    | some xmldesc =>
      cases hp : env.Parse xmldesc with
      | none =>
        rw [domainLoop_cons_unparsed env mac d _ macFound xmldesc h hp,
          domainLoop_cons_unparsed env mac d _ macFound xmldesc h hp]
        rfl
      | some querydoc =>
        rw [domainLoop_cons_parsed env mac d _ macFound xmldesc querydoc h hp,
          domainLoop_cons_parsed env mac d _ macFound xmldesc querydoc h hp,
          cons_bind, bind_assoc_proc]
        have : (fun found => domainLoop env mac (front ++ back) found) =
            (fun a => domainLoop env mac front a >>= fun found => domainLoop env mac back found) :=
          funext (fun found => domainLoop_append env mac back front found)
        rw [this]

theorem domainLoop_ok_parses (env : Env Doc) (mac : String) :
    ∀ (domains : List Domain) (macFound b : Bool),
      (domainLoop env mac domains macFound).result = .ok b →
      ∀ d ∈ domains, ∃ xmldesc querydoc,
        env.DomainGetXMLDesc d = some xmldesc ∧ env.Parse xmldesc = some querydoc
  | [], _, _ => by simp
  | d :: rest, macFound, b => by
    intro hres
    cases h : env.DomainGetXMLDesc d with
    | none =>
      rw [domainLoop_cons_undescribed env mac d _ macFound h] at hres; cases hres
    | some xmldesc =>
      cases hp : env.Parse xmldesc with
      | none =>
        rw [domainLoop_cons_unparsed env mac d _ macFound xmldesc h hp] at hres; cases hres
      | some querydoc =>
        rw [domainLoop_cons_parsed env mac d _ macFound xmldesc querydoc h hp] at hres
        obtain ⟨found, _, hrest⟩ := bind_result_ok hres
        intro e he
        rcases List.mem_cons.1 he with he | he
        · subst he; exact ⟨xmldesc, querydoc, h, hp⟩
        · exact domainLoop_ok_parses env mac rest found b hrest e he

theorem run_dial_failed (env : Env Doc) (mac : String) (h : env.DialTimeout = none) :
    WakeVirtualMachine env mac = ⟨[.DialTimeout], .error "Failed to dial libvirt"⟩ := by
  simp [WakeVirtualMachine, h]

theorem run_connect_failed (env : Env Doc) (mac : String) (hd : env.DialTimeout = some ())
    (h : env.Connect = none) :
    WakeVirtualMachine env mac = ⟨[.DialTimeout, .Connect], .error "Failed to connect"⟩ := by
  simp [WakeVirtualMachine, hd, h]

theorem run_list_failed (env : Env Doc) (mac : String) (hd : env.DialTimeout = some ())
    (hc : env.Connect = some ()) (h : env.ConnectListAllDomains = none) :
    WakeVirtualMachine env mac =
      ⟨[.DialTimeout, .Connect, .ConnectListAllDomains], .error "Failed to retrieve domains"⟩ := by
  simp [WakeVirtualMachine, hd, hc, h]

theorem run_ok_loop_ok (env : Env Doc) (mac : String) (domains : List Domain) (b : Bool)
    (hl : env.ConnectListAllDomains = some domains)
    (h : (WakeVirtualMachine env mac).result = .ok b) :
    (domainLoop env mac domains false).result = .ok b := by
  cases hd : env.DialTimeout with
  | none => rw [run_dial_failed env mac hd] at h; cases h
  | some u =>
    cases hc : env.Connect with
    | none => rw [run_connect_failed env mac hd hc] at h; cases h
    | some v =>
      rw [run_eq env mac domains hd hc hl] at h
      cases hr : (domainLoop env mac domains false).result with
      | error msg => rw [hr] at h; cases h
      | ok found =>
        rw [hr] at h
        simp only at h
        split_ifs at h
        exact h

/-- C9 (as the code behaves): a descriptor that does not parse is fatal.  When the
descriptor of an enumerated machine fails to parse, `WakeVirtualMachine` returns no
match / no match result; and when the run reaches that machine, it ends there with
`log.Fatalf("Failed to parse XML")`: the retrieval of that descriptor is its last
control plane call, the remaining machines are not examined and the connection is not
closed. -/
theorem descriptor_parse_failure_is_fatal (env : Env Doc) (mac : String)
    (front back : List Domain) (d : Domain) (xmldesc : String)
    (hl : env.ConnectListAllDomains = some (front ++ d :: back))
    (hx : env.DomainGetXMLDesc d = some xmldesc) (hp : env.Parse xmldesc = none) :
    (∀ b, (WakeVirtualMachine env mac).result ≠ .ok b) ∧
    (∀ found, env.DialTimeout = some () → env.Connect = some () →
      (domainLoop env mac front false).result = .ok found →
      WakeVirtualMachine env mac =
        ⟨[.DialTimeout, .Connect, .ConnectListAllDomains] ++
          (domainLoop env mac front false).trace ++ [.DomainGetXMLDesc d],
         .error "Failed to parse XML"⟩) := by
  constructor
  · intro b hb
    have hloop := run_ok_loop_ok env mac _ b hl hb
    obtain ⟨x, q, h1, h2⟩ := domainLoop_ok_parses env mac _ false b hloop d (by simp)
    rw [hx] at h1
    cases h1
    rw [hp] at h2
    cases h2
  · intro found hd hc hfront
    rw [run_eq env mac _ hd hc hl, domainLoop_append, bind_ok hfront,
      domainLoop_cons_unparsed env mac d back found xmldesc hx hp]
    simp

/-! ## Runs in which no call fails -/

theorem wakeMatched_ok (env : Env Doc) (d : Domain)
    (h : ∀ c ∈ (wakeMatched env d).trace, env.Answers c = true) :
    wakeMatched env d =
      ⟨.DomainGetState d :: (WakeDecisionTable (reportedState env d)).calls d, .ok true⟩ := by
  have ht := wakeMatched_trace env d
  have hr := wakeMatched_result env d
  cases hs : env.DomainGetState d with
  | none =>
    have := h (.DomainGetState d) (by rw [ht]; simp)
    simp [Env.Answers, hs] at this
  | some state =>
    rw [hs] at ht hr
    simp only [wakeSwitch_trace] at ht
    have hstate : reportedState env d = PowerState.ofState state := by
      simp [reportedState, hs]
    apply proc_ext
    · rw [ht, hstate]
    · rw [hr]
      simp only
      rw [wakeSwitch_result]
      cases hcalls : (WakeDecisionTable (PowerState.ofState state)).calls d with
      | nil => rfl
      | cons c rest =>
        have hc : env.Answers c = true := h c (by rw [ht, hcalls]; simp)
        simp [hc, Except.map]

theorem domainLoop_run (env : Env Doc) (mac : String) :
    ∀ (domains : List Domain) (macFound : Bool),
      (∀ c ∈ (domainLoop env mac domains macFound).trace, env.Answers c = true) →
      DescriptorsParse env domains →
      domainLoop env mac domains macFound =
        ⟨domains.flatMap (roundCalls env mac),
          .ok (macFound || domains.any (carries env mac))⟩
  | [], macFound => by
    intro _ _
    rw [domainLoop_nil]
    simp [pure, Proc.pure]
  | d :: rest, macFound => by
    intro hcalls hparse
    cases h : env.DomainGetXMLDesc d with
    | none =>
      rw [domainLoop_cons_undescribed env mac d _ macFound h] at hcalls
      have := hcalls (.DomainGetXMLDesc d) (by simp)
      simp [Env.Answers, h] at this
    | some xmldesc =>
      cases hp : env.Parse xmldesc with
      | none =>
        have := hparse d (by simp)
        simp [h, hp] at this
      | some querydoc =>
        have hrest : DescriptorsParse env rest := fun e he => hparse e (List.mem_cons_of_mem _ he)
        have hcar := carries_eq env mac d xmldesc querydoc h hp
        rw [domainLoop_cons_parsed env mac d _ macFound xmldesc querydoc h hp] at hcalls ⊢
        rw [interfaceLoop_eq] at hcalls ⊢
        rw [← hcar] at hcalls ⊢
        by_cases hc : carries env mac d = true
        · rw [if_pos hc] at hcalls ⊢
          have hwm := wakeMatched_ok env d (fun c hmem =>
            hcalls c (List.mem_cons_of_mem _ (mem_trace_bind _ hmem)))
          have hres : (wakeMatched env d).result = .ok true := by rw [hwm]
          rw [bind_ok hres] at hcalls ⊢
          have ih := domainLoop_run env mac rest true (fun c hmem =>
            hcalls c (List.mem_cons_of_mem _ (List.mem_append_right _ hmem))) hrest
          rw [ih, hwm]
          simp [roundCalls, hc]
        · rw [if_neg hc] at hcalls ⊢
          rw [pure_bind_proc] at hcalls ⊢
          have ih := domainLoop_run env mac rest macFound (fun c hmem =>
            hcalls c (List.mem_cons_of_mem _ hmem)) hrest
          rw [ih]
          simp [roundCalls, hc]

theorem run_characterised (env : Env Doc) (mac : String) (domains : List Domain)
    (hl : env.ConnectListAllDomains = some domains)
    (hcalls : NoCallFails env mac) (hparse : DescriptorsParse env domains) :
    WakeVirtualMachine env mac =
      ⟨[.DialTimeout, .Connect, .ConnectListAllDomains] ++
        domains.flatMap (roundCalls env mac) ++ [.Disconnect],
       .ok (domains.any (carries env mac))⟩ := by
  unfold NoCallFails at hcalls
  cases hd : env.DialTimeout with
  | none =>
    rw [run_dial_failed env mac hd] at hcalls
    have := hcalls .DialTimeout (by simp)
    simp [Env.Answers, hd] at this
  | some u =>
    cases hc : env.Connect with
    | none =>
      rw [run_connect_failed env mac hd hc] at hcalls
      have := hcalls .Connect (by simp)
      simp [Env.Answers, hc] at this
    | some v =>
      rw [run_eq env mac domains hd hc hl] at hcalls ⊢
      have hloop := domainLoop_run env mac domains false (fun c hmem =>
        hcalls c (by simp [hmem])) hparse
      rw [hloop] at hcalls ⊢
      have hdis := hcalls .Disconnect (by simp)
      simp only [Env.Answers] at hdis
      simp [hdis]

/-! ## What a run may call, whatever fails -/

theorem wakeMatched_calls_sub (env : Env Doc) (d : Domain) :
    ∀ c ∈ (wakeMatched env d).trace,
      c ∈ Call.DomainGetState d :: (WakeDecisionTable (reportedState env d)).calls d := by
  intro c hc
  rw [wakeMatched_trace] at hc
  cases hs : env.DomainGetState d with
  | none =>
    rw [hs] at hc
    simp only [List.mem_singleton] at hc
    simp [hc]
  | some state =>
    rw [hs] at hc
    simp only [wakeSwitch_trace] at hc
    have hstate : reportedState env d = PowerState.ofState state := by
      simp [reportedState, hs]
    rw [hstate]
    exact hc

theorem domainLoop_calls_sub (env : Env Doc) (mac : String) :
    ∀ (domains : List Domain) (macFound : Bool),
      ∀ c ∈ (domainLoop env mac domains macFound).trace,
        ∃ d ∈ domains, c ∈ roundCalls env mac d
  | [], macFound => by
    rw [domainLoop_nil]; simp
  | d :: rest, macFound => by
    intro c hc
    cases h : env.DomainGetXMLDesc d with
    | none =>
      rw [domainLoop_cons_undescribed env mac d _ macFound h] at hc
      simp only [List.mem_singleton] at hc
      exact ⟨d, by simp, by simp [roundCalls, hc]⟩
    | some xmldesc =>
      cases hp : env.Parse xmldesc with
      | none =>
        rw [domainLoop_cons_unparsed env mac d _ macFound xmldesc h hp] at hc
        simp only [List.mem_singleton] at hc
        exact ⟨d, by simp, by simp [roundCalls, hc]⟩
      | some querydoc =>
        have hcar := carries_eq env mac d xmldesc querydoc h hp
        rw [domainLoop_cons_parsed env mac d _ macFound xmldesc querydoc h hp,
          interfaceLoop_eq, ← hcar] at hc
        rcases List.mem_cons.1 hc with hc | hc
        · exact ⟨d, by simp, by simp [roundCalls, hc]⟩
        · rcases mem_bind_trace hc with hc | ⟨found, _, hc⟩
          · by_cases hcd : carries env mac d = true
            · rw [if_pos hcd] at hc
              have := wakeMatched_calls_sub env d c hc
              exact ⟨d, by simp, by
                simp only [roundCalls, hcd, if_true]
                exact List.mem_cons_of_mem _ this⟩
            · rw [if_neg hcd] at hc
              simp at hc
          · obtain ⟨e, he, hce⟩ := domainLoop_calls_sub env mac rest found c hc
            exact ⟨e, List.mem_cons_of_mem _ he, hce⟩

theorem run_calls_sub (env : Env Doc) (mac : String) (domains : List Domain)
    (hl : env.ConnectListAllDomains = some domains) :
    ∀ c ∈ (WakeVirtualMachine env mac).trace,
      c ∈ [Call.DialTimeout, .Connect, .ConnectListAllDomains, .Disconnect] ∨
      ∃ d ∈ domains, c ∈ roundCalls env mac d := by
  intro c hc
  cases hd : env.DialTimeout with
  | none =>
    rw [run_dial_failed env mac hd] at hc
    simp only [List.mem_singleton] at hc
    simp [hc]
  | some u =>
    cases hcn : env.Connect with
    | none =>
      rw [run_connect_failed env mac hd hcn] at hc
      left
      simp only [List.mem_cons, List.mem_singleton, List.not_mem_nil, or_false] at hc ⊢
      rcases hc with hc | hc <;> simp [hc]
    | some v =>
      rw [run_eq env mac domains hd hcn hl] at hc
      simp only [List.mem_cons, List.mem_append] at hc
      rcases hc with hc | hc | hc | hc | hc
      · simp [hc]
      · simp [hc]
      · simp [hc]
      · exact Or.inr (domainLoop_calls_sub env mac domains false c hc)
      · left
        cases hr : (domainLoop env mac domains false).result with
        | error msg => rw [hr] at hc; simp at hc
        | ok found =>
          rw [hr] at hc
          simp only [List.mem_singleton] at hc
          simp [hc]

theorem wake_action_justified (env : Env Doc) (mac : String) (d : Domain) (c : Call)
    (hc : c ∈ roundCalls env mac d) (hw : c.isWakeAction = true) :
    carries env mac d = true ∧ c ∈ (WakeDecisionTable (reportedState env d)).calls d := by
  unfold roundCalls at hc
  rcases List.mem_cons.1 hc with hc | hc
  · subst hc; simp [Call.isWakeAction] at hw
  · by_cases hcd : carries env mac d = true
    · rw [if_pos hcd] at hc
      rcases List.mem_cons.1 hc with hc | hc
      · subst hc; simp [Call.isWakeAction] at hw
      · exact ⟨hcd, hc⟩
    · rw [if_neg hcd] at hc
      simp at hc

theorem serve_calls_sub (env : Env Doc) :
    ∀ (macs : List String), ∀ c ∈ (serve env macs).trace,
      ∃ mac ∈ macs, c ∈ (WakeVirtualMachine env mac).trace
  | [] => by simp [serve]
  | mac :: rest => by
    intro c hc
    unfold serve at hc
    rcases mem_bind_trace hc with hc | ⟨matched, _, hc⟩
    · exact ⟨mac, by simp, hc⟩
    · rcases mem_bind_trace hc with hc | ⟨reports, _, hc⟩
      · obtain ⟨m, hm, hcm⟩ := serve_calls_sub env rest c hc
        exact ⟨m, List.mem_cons_of_mem _ hm, hcm⟩
      · simp at hc

/-- C7: a machine that is already running is never woken.  When every enumerated
machine that carries the target address is reported in the Running state, then however
many frames for that address are served one after the other by the packet loop, no
wake action (`DomainCreate`, `DomainPmWakeup`, `DomainResume`) is issued on any machine,
whether or not some control plane call fails on the way. -/
theorem running_machine_never_woken (env : Env Doc) (mac : String) (domains : List Domain)
    (hl : env.ConnectListAllDomains = some domains)
    (hrun : ∀ d ∈ domains, carries env mac d = true →
      env.DomainGetState d = some DomainRunning) (n : Nat) :
    ∀ c ∈ (serve env (List.replicate n mac)).trace, c.isWakeAction = false := by
  intro c hc
  obtain ⟨m, hm, hcm⟩ := serve_calls_sub env _ c hc
  have hmm : m = mac := (List.mem_replicate.1 hm).2
  subst hmm
  cases hw : c.isWakeAction with
  | false => rfl
  | true =>
    exfalso
    rcases run_calls_sub env m domains hl c hcm with h | ⟨d, hd, hcd⟩
    · simp only [List.mem_cons, List.mem_singleton, List.not_mem_nil, or_false] at h
      rcases h with h | h | h | h <;> subst h <;> simp [Call.isWakeAction] at hw
    · obtain ⟨hcar, hcalls⟩ := wake_action_justified env m d c hcd hw
      have hs := hrun d hd hcar
      have : reportedState env d = .Running := by
        simp [reportedState, hs, PowerState.ofState]
      rw [this] at hcalls
      simp [WakeDecisionTable, WakeAction.calls] at hcalls

/-! ## Matching and the action trace -/

theorem calls_filter_wake (a : WakeAction) (d : Domain) :
    (a.calls d).filter Call.isWakeAction = a.calls d := by
  cases a <;> simp [WakeAction.calls, Call.isWakeAction]

theorem calls_filter_query (a : WakeAction) (d : Domain) :
    (a.calls d).filter Call.isStateQuery = [] := by
  cases a <;> simp [WakeAction.calls, Call.isStateQuery]

theorem calls_target (a : WakeAction) (d : Domain) :
    ∀ c ∈ a.calls d, c.target = some d := by
  cases a <;> simp [WakeAction.calls, Call.target]

theorem roundCalls_filter_wake (env : Env Doc) (mac : String) (d : Domain) :
    (roundCalls env mac d).filter Call.isWakeAction =
      if carries env mac d = true then (WakeDecisionTable (reportedState env d)).calls d
      else [] := by
  unfold roundCalls
  by_cases h : carries env mac d = true
  · simp [h, Call.isWakeAction, calls_filter_wake]
  · simp [h, Call.isWakeAction]

theorem roundCalls_filter_query (env : Env Doc) (mac : String) (d : Domain) :
    (roundCalls env mac d).filter Call.isStateQuery =
      if carries env mac d = true then [.DomainGetState d] else [] := by
  unfold roundCalls
  by_cases h : carries env mac d = true
  · simp [h, Call.isStateQuery, calls_filter_query]
  · simp [h, Call.isStateQuery]

theorem flatMap_filter_wake (env : Env Doc) (mac : String) :
    ∀ domains : List Domain,
      (domains.flatMap (roundCalls env mac)).filter Call.isWakeAction =
        domains.flatMap (fun d =>
          if carries env mac d = true then (WakeDecisionTable (reportedState env d)).calls d
          else [])
  | [] => rfl
  | d :: rest => by
    simp only [List.flatMap_cons, List.filter_append, roundCalls_filter_wake,
      flatMap_filter_wake env mac rest]

theorem flatMap_filter_query (env : Env Doc) (mac : String) :
    ∀ domains : List Domain,
      (domains.flatMap (roundCalls env mac)).filter Call.isStateQuery =
        (domains.filter (carries env mac)).map Call.DomainGetState
  | [] => rfl
  | d :: rest => by
    simp only [List.flatMap_cons, List.filter_append, roundCalls_filter_query,
      flatMap_filter_query env mac rest]
    by_cases h : carries env mac d = true
    · simp [h, List.filter_cons]
    · simp [h, List.filter_cons]

theorem roundCalls_count_query (env : Env Doc) (mac : String) (d e : Domain) :
    (roundCalls env mac e).count (.DomainGetState d) ≤ [e].count d := by
  unfold roundCalls
  by_cases hed : e = d
  · subst hed
    by_cases h : carries env mac e = true <;>
      cases hw : WakeDecisionTable (reportedState env e) <;>
      simp [h, WakeAction.calls, List.count_cons]
  · have hde : ¬ d = e := fun k => hed k.symm
    by_cases h : carries env mac e = true <;>
      cases hw : WakeDecisionTable (reportedState env e) <;>
      simp [h, hed, hde, WakeAction.calls, List.count_cons]

theorem roundCalls_count_wake (env : Env Doc) (mac : String) (d e : Domain) :
    (roundCalls env mac e).count (.DomainCreate d) +
      (roundCalls env mac e).count (.DomainPmWakeup d) +
      (roundCalls env mac e).count (.DomainResume d) ≤ [e].count d := by
  unfold roundCalls
  by_cases hed : e = d
  · subst hed
    by_cases h : carries env mac e = true <;>
      cases hw : WakeDecisionTable (reportedState env e) <;>
      simp [h, WakeAction.calls, List.count_cons]
  · have hde : ¬ d = e := fun k => hed k.symm
    by_cases h : carries env mac e = true <;>
      cases hw : WakeDecisionTable (reportedState env e) <;>
      simp [h, hed, hde, WakeAction.calls, List.count_cons]

theorem flatMap_count_query (env : Env Doc) (mac : String) (d : Domain) :
    ∀ domains : List Domain,
      (domains.flatMap (roundCalls env mac)).count (.DomainGetState d) ≤ domains.count d
  | [] => by simp
  | e :: rest => by
    have h1 := roundCalls_count_query env mac d e
    have h2 := flatMap_count_query env mac d rest
    have h3 : (e :: rest).count d = [e].count d + rest.count d := by
      rw [← List.count_append]; rfl
    simp only [List.flatMap_cons, List.count_append, h3]
    omega

theorem flatMap_count_wake (env : Env Doc) (mac : String) (d : Domain) :
    ∀ domains : List Domain,
      (domains.flatMap (roundCalls env mac)).count (.DomainCreate d) +
        (domains.flatMap (roundCalls env mac)).count (.DomainPmWakeup d) +
        (domains.flatMap (roundCalls env mac)).count (.DomainResume d) ≤ domains.count d
  | [] => by simp
  | e :: rest => by
    have h1 := roundCalls_count_wake env mac d e
    have h2 := flatMap_count_wake env mac d rest
    have h3 : (e :: rest).count d = [e].count d + rest.count d := by
      rw [← List.count_append]; rfl
    simp only [List.flatMap_cons, List.count_append, h3]
    omega

theorem flatMap_no_carrier (env : Env Doc) (mac : String) :
    ∀ domains : List Domain, (∀ d ∈ domains, carries env mac d = false) →
      domains.flatMap (roundCalls env mac) = domains.map Call.DomainGetXMLDesc
  | [] => fun _ => rfl
  | d :: rest => by
    intro h
    have hd := h d (by simp)
    simp only [List.flatMap_cons, List.map_cons, roundCalls, hd]
    rw [flatMap_no_carrier env mac rest (fun e he => h e (List.mem_cons_of_mem _ he))]
    simp

/-- C5 (as the code behaves): no match is safe.  When the target address is configured
on no interface of any enumerated machine, no control plane call fails and every
descriptor parses, `WakeVirtualMachine` describes
every machine, closes the connection and returns false; it issues no state query and
no wake action on any machine.  An empty inventory is the case `domains = []`. -/
theorem no_match_safety (env : Env Doc) (mac : String) (domains : List Domain)
    (hl : env.ConnectListAllDomains = some domains)
    (hcalls : NoCallFails env mac) (hparse : DescriptorsParse env domains)
    (hnone : ∀ d ∈ domains, carries env mac d = false) :
    WakeVirtualMachine env mac =
      ⟨[.DialTimeout, .Connect, .ConnectListAllDomains] ++
        domains.map Call.DomainGetXMLDesc ++ [.Disconnect], .ok false⟩ ∧
    ∀ c ∈ (WakeVirtualMachine env mac).trace,
      c.isStateQuery = false ∧ c.isWakeAction = false := by
  have hrun := run_characterised env mac domains hl hcalls hparse
  have hany : domains.any (carries env mac) = false := by
    rw [List.any_eq_false]
    intro d hd
    simp [hnone d hd]
  rw [flatMap_no_carrier env mac domains hnone, hany] at hrun
  refine ⟨hrun, ?_⟩
  rw [hrun]
  intro c hc
  rcases List.mem_append.1 hc with hc | hc
  · rcases List.mem_append.1 hc with hc | hc
    · simp only [List.mem_cons, List.mem_singleton, List.not_mem_nil, or_false] at hc
      rcases hc with hc | hc | hc <;> subst hc <;> exact ⟨rfl, rfl⟩
    · obtain ⟨d, _, hd⟩ := List.mem_map.1 hc
      subst hd
      exact ⟨rfl, rfl⟩
  · simp only [List.mem_singleton] at hc
    subst hc
    exact ⟨rfl, rfl⟩

/-- C6 (as the code behaves): match reporting.  When no control plane call fails and
every descriptor parses, `WakeVirtualMachine` returns true exactly when some enumerated machine has an interface address equal to
the target under the comparison of the matcher, and false exactly when none has; the
value is the same whatever power states the control plane reports, hence also when the
matched machine is running and nothing is done to it. -/
theorem match_reporting (env : Env Doc) (mac : String) (domains : List Domain)
    (hl : env.ConnectListAllDomains = some domains)
    (hcalls : NoCallFails env mac) (hparse : DescriptorsParse env domains) :
    ((WakeVirtualMachine env mac).result = .ok true ↔
      ∃ d ∈ domains, carries env mac d = true) ∧
    ((WakeVirtualMachine env mac).result = .ok false ↔
      ¬ ∃ d ∈ domains, carries env mac d = true) ∧
    (∀ states : Domain → Option Int,
      NoCallFails { env with DomainGetState := states } mac →
      (WakeVirtualMachine { env with DomainGetState := states } mac).result =
        (WakeVirtualMachine env mac).result) := by
  have hrun := run_characterised env mac domains hl hcalls hparse
  refine ⟨?_, ?_, ?_⟩
  · rw [hrun]
    simp
  · rw [hrun]
    simp
  · intro states hcalls2
    have hrun2 := run_characterised { env with DomainGetState := states } mac domains hl
      hcalls2 hparse
    rw [hrun, hrun2]
    rfl

/-- C10 (as the code behaves): the exact action trace.  When no control plane call
fails and every descriptor parses, the wake actions issued by one run of `WakeVirtualMachine` are, in order, those obtained by walking the
enumerated machines in enumeration order and emitting, for each machine that carries
the target address, the calls of the decision table action for the reported state of
that machine on that machine (nothing for NoOp); the state queries are those of the
carrying machines, in order; a machine is queried and acted upon at most as often as
it is enumerated, hence at most once when the enumeration lists it once, however many
of its interfaces carry the address; and every wake action is on an enumerated machine
that carries the address. -/
theorem exact_action_trace (env : Env Doc) (mac : String) (domains : List Domain)
    (hl : env.ConnectListAllDomains = some domains)
    (hcalls : NoCallFails env mac) (hparse : DescriptorsParse env domains) :
    (WakeVirtualMachine env mac).trace.filter Call.isWakeAction =
      domains.flatMap (fun d =>
        if carries env mac d = true then (WakeDecisionTable (reportedState env d)).calls d
        else []) ∧
    (WakeVirtualMachine env mac).trace.filter Call.isStateQuery =
      (domains.filter (carries env mac)).map Call.DomainGetState ∧
    (∀ d, (WakeVirtualMachine env mac).trace.count (.DomainGetState d) ≤ domains.count d) ∧
    (∀ d, (WakeVirtualMachine env mac).trace.count (.DomainCreate d) +
        (WakeVirtualMachine env mac).trace.count (.DomainPmWakeup d) +
        (WakeVirtualMachine env mac).trace.count (.DomainResume d) ≤ domains.count d) ∧
    (domains.Nodup → ∀ d,
      (WakeVirtualMachine env mac).trace.count (.DomainGetState d) ≤ 1 ∧
      (WakeVirtualMachine env mac).trace.count (.DomainCreate d) +
        (WakeVirtualMachine env mac).trace.count (.DomainPmWakeup d) +
        (WakeVirtualMachine env mac).trace.count (.DomainResume d) ≤ 1) ∧
    (∀ c ∈ (WakeVirtualMachine env mac).trace, c.isWakeAction = true →
      ∃ d ∈ domains, carries env mac d = true ∧ c.target = some d) := by
  have hrun := run_characterised env mac domains hl hcalls hparse
  have hquery : ∀ d,
      (WakeVirtualMachine env mac).trace.count (.DomainGetState d) ≤ domains.count d := by
    intro d
    rw [hrun]
    have := flatMap_count_query env mac d domains
    simpa [List.count_cons] using this
  have hwake : ∀ d, (WakeVirtualMachine env mac).trace.count (.DomainCreate d) +
      (WakeVirtualMachine env mac).trace.count (.DomainPmWakeup d) +
      (WakeVirtualMachine env mac).trace.count (.DomainResume d) ≤ domains.count d := by
    intro d
    rw [hrun]
    have := flatMap_count_wake env mac d domains
    simpa [List.count_cons] using this
  refine ⟨?_, ?_, hquery, hwake, ?_, ?_⟩
  · rw [hrun]
    simp only [List.filter_append, flatMap_filter_wake]
    simp [Call.isWakeAction]
  · rw [hrun]
    simp only [List.filter_append, flatMap_filter_query]
    simp [Call.isStateQuery]
  · intro hnd d
    have h1 := List.nodup_iff_count_le_one.1 hnd d
    exact ⟨le_trans (hquery d) h1, le_trans (hwake d) h1⟩
  · intro c hc hw
    rcases run_calls_sub env mac domains hl c hc with h | ⟨d, hd, hcd⟩
    · simp only [List.mem_cons, List.mem_singleton, List.not_mem_nil, or_false] at h
      rcases h with h | h | h | h <;> subst h <;> simp [Call.isWakeAction] at hw
    · obtain ⟨hcar, hcalls'⟩ := wake_action_justified env mac d c hcd hw
      exact ⟨d, hd, hcar, calls_target _ d c hcalls'⟩

/-- C2 (as the code behaves): the first match comes first.  When no control plane call
fails and every descriptor parses, the first machine in enumeration order that carries
the target address is the
first machine to be matched: the machines before it are only described, it is queried
once and receives once the decision table action for its reported state, however many
of its interfaces carry the address (the scan of its interfaces stops at the first
hit), before any call about a later machine, and the run reports a match.  What
follows in the trace is the loop over the remaining machines and the disconnect. -/
theorem first_match_comes_first (env : Env Doc) (mac : String)
    (front back : List Domain) (d : Domain)
    (hl : env.ConnectListAllDomains = some (front ++ d :: back))
    (hcalls : NoCallFails env mac) (hparse : DescriptorsParse env (front ++ d :: back))
    (hfront : ∀ e ∈ front, carries env mac e = false) (hd : carries env mac d = true) :
    WakeVirtualMachine env mac =
      ⟨[.DialTimeout, .Connect, .ConnectListAllDomains] ++
        front.map Call.DomainGetXMLDesc ++
        (.DomainGetXMLDesc d :: .DomainGetState d ::
          (WakeDecisionTable (reportedState env d)).calls d) ++
        (domainLoop env mac back true).trace ++ [.Disconnect],
       .ok true⟩ := by
  have hrun := run_characterised env mac _ hl hcalls hparse
  have hback : domainLoop env mac back true =
      ⟨back.flatMap (roundCalls env mac), .ok (true || back.any (carries env mac))⟩ := by
    apply domainLoop_run env mac back true
    · intro c hc
      obtain ⟨e, he, hce⟩ := domainLoop_calls_sub env mac back true c hc
      apply hcalls
      rw [hrun]
      simp only [List.mem_append, List.mem_flatMap]
      exact Or.inl (Or.inr ⟨e, Or.inr (List.mem_cons_of_mem _ he), hce⟩)
    · intro e he
      exact hparse e (List.mem_append_right _ (List.mem_cons_of_mem _ he))
  rw [hrun, hback]
  have hany : (front ++ d :: back).any (carries env mac) = true := by
    rw [List.any_eq_true]
    exact ⟨d, by simp, hd⟩
  rw [hany]
  simp only [List.flatMap_append, List.flatMap_cons, flatMap_no_carrier env mac front hfront]
  simp [roundCalls, hd]

/-- Witness for C2 (amended): in `mixedLab` the machine vm2 comes first and
does not carry the address; vm1 carries it on two interfaces and is queried and started
once. -/
theorem first_match_comes_first_witness :
    mixedLab.ConnectListAllDomains = some ([vm2] ++ vm1 :: [vm3, vm4, vm5]) ∧
    carries mixedLab "52:54:00:aa:bb:cc" vm1 = true ∧
    WakeVirtualMachine mixedLab "52:54:00:aa:bb:cc" =
      ⟨[.DialTimeout, .Connect, .ConnectListAllDomains] ++
        [vm2].map Call.DomainGetXMLDesc ++
        (.DomainGetXMLDesc vm1 :: .DomainGetState vm1 ::
          (WakeDecisionTable (reportedState mixedLab vm1)).calls vm1) ++
        (domainLoop mixedLab "52:54:00:aa:bb:cc" [vm3, vm4, vm5] true).trace ++ [.Disconnect],
       .ok true⟩ :=
  ⟨rfl, by decide,
    first_match_comes_first mixedLab "52:54:00:aa:bb:cc" [vm2] [vm3, vm4, vm5] vm1 rfl
      (by unfold NoCallFails; decide) (by unfold DescriptorsParse; decide)
      (by decide) (by decide)⟩

/-- C2 fails as stated: in `duplicateLab` both machines are configured with the target
address; the search does not stop at vm1, and vm2 has its state queried and is started
as well. -/
theorem first_match_only_counterexample :
    duplicateLab.ConnectListAllDomains = some [vm1, vm2] ∧
    carries duplicateLab "52:54:00:aa:bb:cc" vm1 = true ∧
    carries duplicateLab "52:54:00:aa:bb:cc" vm2 = true ∧
    WakeVirtualMachine duplicateLab "52:54:00:aa:bb:cc" =
      ⟨[.DialTimeout, .Connect, .ConnectListAllDomains,
        .DomainGetXMLDesc vm1, .DomainGetState vm1, .DomainCreate vm1,
        .DomainGetXMLDesc vm2, .DomainGetState vm2, .DomainCreate vm2,
        .Disconnect], .ok true⟩ :=
  ⟨rfl, by decide, by decide, rfl⟩

/-- C9 fails as stated: in `brokenDescriptorLab` no control plane call fails and the
descriptor of vm1 does not parse; the run ends with `log.Fatalf` right after
retrieving that descriptor, returns no result, never examines vm2 (which carries the
target address) and does not disconnect. -/
theorem parse_error_not_local_counterexample :
    brokenDescriptorLab.ConnectListAllDomains = some [vm3, vm1, vm2] ∧
    brokenDescriptorLab.DomainGetXMLDesc vm1 = some "vm1.xml" ∧
    brokenDescriptorLab.Parse "vm1.xml" = none ∧
    carries brokenDescriptorLab "52:54:00:aa:bb:cc" vm2 = true ∧
    (∀ c ∈ (WakeVirtualMachine brokenDescriptorLab "52:54:00:aa:bb:cc").trace,
      brokenDescriptorLab.Answers c = true) ∧
    WakeVirtualMachine brokenDescriptorLab "52:54:00:aa:bb:cc" =
      ⟨[.DialTimeout, .Connect, .ConnectListAllDomains,
        .DomainGetXMLDesc vm3, .DomainGetState vm3, .DomainResume vm3,
        .DomainGetXMLDesc vm1], .error "Failed to parse XML"⟩ :=
  ⟨rfl, rfl, rfl, by decide, by decide, rfl⟩

/-- Witness for C9 (amended) in `brokenDescriptorLab`. -/
theorem descriptor_parse_failure_is_fatal_witness :
    brokenDescriptorLab.ConnectListAllDomains = some ([vm3] ++ vm1 :: [vm2]) ∧
    brokenDescriptorLab.DomainGetXMLDesc vm1 = some "vm1.xml" ∧
    brokenDescriptorLab.Parse "vm1.xml" = none ∧
    (domainLoop brokenDescriptorLab "52:54:00:aa:bb:cc" [vm3] false).result = .ok true ∧
    (∀ b, (WakeVirtualMachine brokenDescriptorLab "52:54:00:aa:bb:cc").result ≠ .ok b) ∧
    WakeVirtualMachine brokenDescriptorLab "52:54:00:aa:bb:cc" =
      ⟨[.DialTimeout, .Connect, .ConnectListAllDomains] ++
        (domainLoop brokenDescriptorLab "52:54:00:aa:bb:cc" [vm3] false).trace ++
        [.DomainGetXMLDesc vm1], .error "Failed to parse XML"⟩ :=
  ⟨rfl, rfl, rfl, rfl,
    (descriptor_parse_failure_is_fatal brokenDescriptorLab "52:54:00:aa:bb:cc"
      [vm3] [vm2] vm1 "vm1.xml" rfl rfl rfl).1,
    (descriptor_parse_failure_is_fatal brokenDescriptorLab "52:54:00:aa:bb:cc"
      [vm3] [vm2] vm1 "vm1.xml" rfl rfl rfl).2 true rfl rfl rfl⟩

/-- Witness for C8 in `outageLab`: vm1 has been started
when the retrieval of the descriptor of vm2, which does not carry the address, fails. -/
theorem control_plane_failure_is_fatal_witness :
    (WakeVirtualMachine outageLab "52:54:00:aa:bb:cc").trace =
      [.DialTimeout, .Connect, .ConnectListAllDomains, .DomainGetXMLDesc vm1,
        .DomainGetState vm1, .DomainCreate vm1] ++ .DomainGetXMLDesc vm2 :: [] ∧
    outageLab.Answers (.DomainGetXMLDesc vm2) = false ∧
    carries outageLab "52:54:00:aa:bb:cc" vm2 = false ∧
    (WakeVirtualMachine outageLab "52:54:00:aa:bb:cc").result =
      .error "failed retrieving interfaces" ∧
    ∀ b, (WakeVirtualMachine outageLab "52:54:00:aa:bb:cc").result ≠ .ok b :=
  ⟨rfl, by decide, by decide,
    ((control_plane_failure_is_fatal outageLab "52:54:00:aa:bb:cc").1
      [.DialTimeout, .Connect, .ConnectListAllDomains, .DomainGetXMLDesc vm1,
        .DomainGetState vm1, .DomainCreate vm1] [] (.DomainGetXMLDesc vm2) rfl
      (by decide)).2.2.1,
    ((control_plane_failure_is_fatal outageLab "52:54:00:aa:bb:cc").1
      [.DialTimeout, .Connect, .ConnectListAllDomains, .DomainGetXMLDesc vm1,
        .DomainGetState vm1, .DomainCreate vm1] [] (.DomainGetXMLDesc vm2) rfl
      (by decide)).2.2.2⟩

/-- Witness for C5: end-to-end scenario 5 of the specification, and the
empty inventory. -/
theorem no_match_safety_witness :
    (WakeVirtualMachine strangerLab "BB:BB:BB:BB:BB:BB" =
      ⟨[.DialTimeout, .Connect, .ConnectListAllDomains] ++
        [vm5].map Call.DomainGetXMLDesc ++ [.Disconnect], .ok false⟩ ∧
     ∀ c ∈ (WakeVirtualMachine strangerLab "BB:BB:BB:BB:BB:BB").trace,
      c.isStateQuery = false ∧ c.isWakeAction = false) ∧
    (WakeVirtualMachine (lab [] never) "BB:BB:BB:BB:BB:BB" =
      ⟨[.DialTimeout, .Connect, .ConnectListAllDomains] ++
        ([] : List Domain).map Call.DomainGetXMLDesc ++ [.Disconnect], .ok false⟩ ∧
     ∀ c ∈ (WakeVirtualMachine (lab [] never) "BB:BB:BB:BB:BB:BB").trace,
      c.isStateQuery = false ∧ c.isWakeAction = false) :=
  ⟨no_match_safety strangerLab "BB:BB:BB:BB:BB:BB" [vm5] rfl
      (by unfold NoCallFails; decide) (by unfold DescriptorsParse; decide) (by decide),
   no_match_safety (lab [] never) "BB:BB:BB:BB:BB:BB" [] rfl
      (by unfold NoCallFails; decide) (by unfold DescriptorsParse; decide) (by decide)⟩

/-- Witness for C6: end-to-end scenario 4 of the specification; the
running machine is matched and reported, and nothing is done to it. -/
theorem match_reporting_witness :
    runningLab.ConnectListAllDomains = some [vm4] ∧
    NoCallFails runningLab "11:22:33:44:55:66" ∧
    DescriptorsParse runningLab [vm4] ∧
    (∃ d ∈ [vm4], carries runningLab "11:22:33:44:55:66" d = true) ∧
    (WakeVirtualMachine runningLab "11:22:33:44:55:66").result = .ok true ∧
    (WakeVirtualMachine runningLab "11:22:33:44:55:66").trace.filter Call.isWakeAction = [] :=
  ⟨rfl, by unfold NoCallFails; decide, by unfold DescriptorsParse; decide, by decide,
    (match_reporting runningLab "11:22:33:44:55:66" [vm4] rfl
      (by unfold NoCallFails; decide) (by unfold DescriptorsParse; decide)).1.2 (by decide),
    by decide⟩

/-- Witness for C10 in `mixedLab`: vm1 is started once although two of
its interfaces carry the address, vm3 is resumed, vm4 is left alone and vm5 receives
the power management wakeup. -/
theorem exact_action_trace_witness :
    mixedLab.ConnectListAllDomains = some [vm2, vm1, vm3, vm4, vm5] ∧
    NoCallFails mixedLab "52:54:00:aa:bb:cc" ∧
    DescriptorsParse mixedLab [vm2, vm1, vm3, vm4, vm5] ∧
    (WakeVirtualMachine mixedLab "52:54:00:aa:bb:cc").trace.filter Call.isWakeAction =
      [.DomainCreate vm1, .DomainResume vm3, .DomainPmWakeup vm5] ∧
    (WakeVirtualMachine mixedLab "52:54:00:aa:bb:cc").trace.filter Call.isStateQuery =
      [.DomainGetState vm1, .DomainGetState vm3, .DomainGetState vm4, .DomainGetState vm5] :=
  ⟨rfl, by unfold NoCallFails; decide, by unfold DescriptorsParse; decide,
    (exact_action_trace mixedLab "52:54:00:aa:bb:cc" [vm2, vm1, vm3, vm4, vm5] rfl
      (by unfold NoCallFails; decide) (by unfold DescriptorsParse; decide)).1.trans
        (by decide),
    (exact_action_trace mixedLab "52:54:00:aa:bb:cc" [vm2, vm1, vm3, vm4, vm5] rfl
      (by unfold NoCallFails; decide) (by unfold DescriptorsParse; decide)).2.1.trans
        (by decide)⟩

/-- Witness for C7: three frames in a row for the running
machine of `runningLab`. -/
theorem running_machine_never_woken_witness :
    runningLab.ConnectListAllDomains = some [vm4] ∧
    (∀ d ∈ [vm4], carries runningLab "11:22:33:44:55:66" d = true →
      runningLab.DomainGetState d = some DomainRunning) ∧
    (serve runningLab (List.replicate 3 "11:22:33:44:55:66")).result =
      .ok [true, true, true] ∧
    ∀ c ∈ (serve runningLab (List.replicate 3 "11:22:33:44:55:66")).trace,
      c.isWakeAction = false :=
  ⟨rfl, by decide, rfl,
    running_machine_never_woken runningLab "11:22:33:44:55:66" [vm4] rfl (by decide) 3⟩

/-- C5 fails as stated: in `unreadableLab` no control plane call fails and the target
address is configured on no interface of the one enumerated machine, whose descriptor
does not parse; the run does not return false but ends with `log.Fatalf`. -/
theorem no_match_unreadable_counterexample :
    unreadableLab.ConnectListAllDomains = some [vm1] ∧
    carries unreadableLab "BB:BB:BB:BB:BB:BB" vm1 = false ∧
    (∀ c ∈ (WakeVirtualMachine unreadableLab "BB:BB:BB:BB:BB:BB").trace,
      unreadableLab.Answers c = true) ∧
    WakeVirtualMachine unreadableLab "BB:BB:BB:BB:BB:BB" =
      ⟨[.DialTimeout, .Connect, .ConnectListAllDomains, .DomainGetXMLDesc vm1],
        .error "Failed to parse XML"⟩ ∧
    (WakeVirtualMachine unreadableLab "BB:BB:BB:BB:BB:BB").result ≠ .ok false :=
  ⟨rfl, by decide, by decide, rfl,
    (fun h => by
      have h2 : (Except.error "Failed to parse XML" : Except String Bool) = .ok false := h
      cases h2)⟩

/-- C6 fails as stated: in `brokenDescriptorLab` no control plane call fails and the
enumerated machines vm3 and vm2 have an interface address equal to the target, yet the
run does not return true: the descriptor of vm1 does not parse and the run ends with
`log.Fatalf`. -/
theorem match_unreported_counterexample :
    brokenDescriptorLab.ConnectListAllDomains = some [vm3, vm1, vm2] ∧
    (∀ c ∈ (WakeVirtualMachine brokenDescriptorLab "52:54:00:aa:bb:cc").trace,
      brokenDescriptorLab.Answers c = true) ∧
    (∃ d ∈ [vm3, vm1, vm2], carries brokenDescriptorLab "52:54:00:aa:bb:cc" d = true) ∧
    (WakeVirtualMachine brokenDescriptorLab "52:54:00:aa:bb:cc").result ≠ .ok true ∧
    (WakeVirtualMachine brokenDescriptorLab "52:54:00:aa:bb:cc").result =
      .error "Failed to parse XML" :=
  ⟨rfl, by decide, by decide,
    (fun h => by
      have h2 : (Except.error "Failed to parse XML" : Except String Bool) = .ok true := h
      cases h2),
    rfl⟩

/-- C10 fails as stated.  In `brokenDescriptorLab` no control plane call fails, the walk
over the machines that carry the target address gives the resume of vm3 and the start
of vm2, but the run issues only the resume of vm3, because the descriptor of vm1 in
between does not parse.  In `twiceListedLab` no call fails and every descriptor parses,
and the machine that the enumeration lists twice is queried twice and started twice. -/
theorem action_trace_counterexample :
    (brokenDescriptorLab.ConnectListAllDomains = some [vm3, vm1, vm2] ∧
     (∀ c ∈ (WakeVirtualMachine brokenDescriptorLab "52:54:00:aa:bb:cc").trace,
       brokenDescriptorLab.Answers c = true) ∧
     [vm3, vm1, vm2].flatMap (fun d =>
        if carries brokenDescriptorLab "52:54:00:aa:bb:cc" d = true
        then (WakeDecisionTable (reportedState brokenDescriptorLab d)).calls d else []) =
       [.DomainResume vm3, .DomainCreate vm2] ∧
     (WakeVirtualMachine brokenDescriptorLab "52:54:00:aa:bb:cc").trace.filter
        Call.isWakeAction = [.DomainResume vm3]) ∧
    (twiceListedLab.ConnectListAllDomains = some [vm1, vm1] ∧
     NoCallFails twiceListedLab "52:54:00:aa:bb:cc" ∧
     DescriptorsParse twiceListedLab [vm1, vm1] ∧
     (WakeVirtualMachine twiceListedLab "52:54:00:aa:bb:cc").trace.count
        (.DomainGetState vm1) = 2 ∧
     (WakeVirtualMachine twiceListedLab "52:54:00:aa:bb:cc").trace.count
        (.DomainCreate vm1) = 2) :=
  ⟨⟨rfl, by decide, by decide, by decide⟩,
   ⟨rfl, by unfold NoCallFails; decide, by unfold DescriptorsParse; decide,
     by decide, by decide⟩⟩

end Virtwold
